import Mathlib

/-!
Verification of the license issuance / verification subsystem of the
AI-Invoice-Knowledge repository against its specification.

The Python sources embedded here (shallowly) are:
  src/src/ai_invoice/license.py          (canonical JSON, token codec, verifier)
  src/src/ai_invoice/license_generator.py (artifact builder)
  src/scripts/generate_license.py        (issuance CLI)
  src/src/api/license_validator.py       (JWT-style validator, claims, features)
  src/src/api/security.py                (require_license_token surfacing)
  src/src/api/middleware.py              (middleware surfacing of verify errors)
  src/src/ai_invoice/trial.py            (7-day trial fallback)

Machine integers do not occur; Python ints are unbounded and are modelled
as Nat / Int.  JSON numbers are modelled as integers: every number in a
license artifact (version, epoch seconds) is integral and the spec forbids
float-encoded timestamps.  Cryptographic primitives (Ed25519 via openssl,
RSA/SHA-256) are modelled as explicit oracle parameters: the claims under
study concern check ordering and error surfacing, which are independent of
the key material, and the theorems quantify over the oracle wherever the
source behaviour must not depend on it.
-/

namespace LicenseSpec

/-- JSON-representable values (`json.loads` / `json.dumps` data model),
with numbers restricted to integers as explained in the file header. -/
inductive Json where
  | null : Json
  | bool (b : Bool) : Json
  | num (n : Int) : Json
  | str (s : String) : Json
  | arr (items : List Json) : Json
  | obj (fields : List (String × Json)) : Json

/-- Lexicographic comparison of strings by code point, exactly Python's
`str` comparison used by `sorted()` / `sort_keys=True`. -/
def charListLe : List Char → List Char → Bool
  | _ :: _, [] => false
  | [], _ => true
  | a :: as, b :: bs =>
      if a.toNat < b.toNat then true
      else if b.toNat < a.toNat then false
      else charListLe as bs

theorem charListLe_total : ∀ as bs, charListLe as bs = true ∨ charListLe bs as = true
  | [], _ => Or.inl rfl
  | _ :: _, [] => Or.inr rfl
  | a :: as, b :: bs => by
      rw [charListLe, charListLe]
      by_cases h1 : a.toNat < b.toNat
      · left
        simp [h1]
      · by_cases h2 : b.toNat < a.toNat
        · right
          simp [h2]
        · simpa [h1, h2] using charListLe_total as bs

theorem charListLe_trans :
    ∀ as bs cs, charListLe as bs = true → charListLe bs cs = true → charListLe as cs = true
  | [], _, _ => by simp [charListLe]
  | _ :: _, [], _ => by simp [charListLe]
  | _ :: _, _ :: _, [] => by simp [charListLe]
  | a :: as, b :: bs, c :: cs => by
      rw [charListLe, charListLe, charListLe]
      by_cases hab : a.toNat < b.toNat
      · by_cases hbc : b.toNat < c.toNat
        · intro _ _
          simp [show a.toNat < c.toNat by omega]
        · by_cases hcb : c.toNat < b.toNat
          · intro _ h2
            rw [if_neg hbc, if_pos hcb] at h2
            cases h2
          · intro _ _
            simp [show a.toNat < c.toNat by omega]
      · by_cases hba : b.toNat < a.toNat
        · intro h1
          rw [if_neg hab, if_pos hba] at h1
          cases h1
        · by_cases hbc : b.toNat < c.toNat
          · intro _ _
            simp [show a.toNat < c.toNat by omega]
          · by_cases hcb : c.toNat < b.toNat
            · intro _ h2
              rw [if_neg hbc, if_pos hcb] at h2
              cases h2
            · intro h1 h2
              rw [if_neg hab, if_neg hba] at h1
              rw [if_neg hbc, if_neg hcb] at h2
              rw [if_neg (show ¬ a.toNat < c.toNat by omega),
                if_neg (show ¬ c.toNat < a.toNat by omega)]
              exact charListLe_trans as bs cs h1 h2

theorem char_eq_of_toNat_eq {a b : Char} (h : a.toNat = b.toNat) : a = b := by
  have := congrArg Char.ofNat h
  rwa [Char.ofNat_toNat, Char.ofNat_toNat] at this

theorem charListLe_antisymm :
    ∀ as bs, charListLe as bs = true → charListLe bs as = true → as = bs
  | [], [], _, _ => rfl
  | [], _ :: _, _, h2 => by cases h2
  | _ :: _, [], h1, _ => by cases h1
  | a :: as, b :: bs, h1, h2 => by
      rw [charListLe] at h1 h2
      by_cases hab : a.toNat < b.toNat
      · rw [if_neg (show ¬ b.toNat < a.toNat by omega), if_pos hab] at h2
        cases h2
      · by_cases hba : b.toNat < a.toNat
        · rw [if_neg hab, if_pos hba] at h1
          cases h1
        · rw [if_neg hab, if_neg hba] at h1
          rw [if_neg hba, if_neg hab] at h2
          rw [char_eq_of_toNat_eq (show a.toNat = b.toNat by omega),
            charListLe_antisymm as bs h1 h2]

/-- Key order used by `json.dumps(..., sort_keys=True)`. -/
def keyLe (a b : String × Json) : Prop := charListLe a.1.data b.1.data = true

instance : DecidableRel keyLe :=
  fun a b => inferInstanceAs (Decidable (charListLe a.1.data b.1.data = true))

instance : IsTotal (String × Json) keyLe := ⟨fun a b => charListLe_total a.1.data b.1.data⟩

instance : IsTrans (String × Json) keyLe :=
  ⟨fun _ _ _ h h' => charListLe_trans _ _ _ h h'⟩

/-- Strict key order; used to show that sorting a permutation of a
duplicate-free association list is canonical. -/
def keyLt (a b : String × Json) : Prop := keyLe a b ∧ a.1 ≠ b.1

theorem string_eq_of_data_eq {a b : String} (h : a.data = b.data) : a = b := by
  cases a
  cases b
  exact congrArg String.mk h

instance : IsAntisymm (String × Json) keyLt :=
  ⟨fun _ _ h h' =>
    absurd (string_eq_of_data_eq (charListLe_antisymm _ _ h.1 h'.1)) h.2⟩

mutual

/-- Recursively sort every object's entries by key.  `json.dumps` with
`sort_keys=True` renders each object's entries in sorted key order while
recursing, which is byte-for-byte the same as rendering the recursively
sorted document; `canon` is that recursively sorted document. -/
def canon : Json → Json
  | .null => .null
  | .bool b => .bool b
  | .num n => .num n
  | .str s => .str s
  | .arr xs => .arr (canonItems xs)
  | .obj fs => .obj (List.insertionSort keyLe (canonFields fs))

def canonItems : List Json → List Json
  | [] => []
  | x :: xs => canon x :: canonItems xs

def canonFields : List (String × Json) → List (String × Json)
  | [] => []
  | kv :: fs => (kv.1, canon kv.2) :: canonFields fs

end

/-- Decimal digits, fuel-indexed so the definition is structural (and so
computes definitionally); `toDecimal` instantiates the fuel. -/
def toDecimalAux : Nat → Nat → List Char
  | 0, _ => []
  | fuel + 1, n =>
      if n < 10 then [Char.ofNat (48 + n)]
      else toDecimalAux fuel (n / 10) ++ [Char.ofNat (48 + n % 10)]

/-- Decimal digits of a natural number, most significant first; the
rendering Python's `int.__repr__` (hence `json.dumps`) uses. -/
def toDecimal (n : Nat) : List Char := toDecimalAux (n + 1) n

theorem toDecimalAux_congr :
    ∀ fuel fuel' n, n < fuel → n < fuel' → toDecimalAux fuel n = toDecimalAux fuel' n := by
  intro fuel
  induction fuel with
  | zero => intro fuel' n h; omega
  | succ f ih =>
    intro fuel' n h h'
    cases fuel' with
    | zero => omega
    | succ f' =>
      rw [toDecimalAux, toDecimalAux]
      by_cases h10 : n < 10
      · rw [if_pos h10, if_pos h10]
      · have hdiv : n / 10 < n := Nat.div_lt_self (by omega) (by omega)
        rw [if_neg h10, if_neg h10, ih f' (n / 10) (by omega) (by omega)]

theorem toDecimal_unfold (n : Nat) :
    toDecimal n = if n < 10 then [Char.ofNat (48 + n)]
      else toDecimal (n / 10) ++ [Char.ofNat (48 + n % 10)] := by
  show toDecimalAux (n + 1) n = _
  rw [toDecimalAux]
  by_cases h10 : n < 10
  · rw [if_pos h10, if_pos h10]
  · have hdiv : n / 10 < n := Nat.div_lt_self (by omega) (by omega)
    rw [if_neg h10, if_neg h10,
      toDecimalAux_congr n (n / 10 + 1) (n / 10) (by omega) (by omega)]
    rfl

/-- `json.dumps` rendering of an integer. -/
def serNum (n : Int) : List Char :=
  if n < 0 then '-' :: toDecimal n.natAbs else toDecimal n.natAbs

/-- Lower-case hex digit, as produced by Python's `'\u%04x' % i`. -/
def hexLower (n : Nat) : Char :=
  if n < 10 then Char.ofNat (48 + n) else Char.ofNat (87 + n)

/-- Escaping of one character inside a JSON string, per CPython's
`json.encoder` ESCAPE_DCT with `ensure_ascii=False`: `"` and `\` and the
C0 control characters are escaped, everything else (including non-ASCII)
is emitted literally. -/
def escapeChar (c : Char) : List Char :=
  if c = '"' then ['\\', '"']
  else if c = '\\' then ['\\', '\\']
  else if c = '\n' then ['\\', 'n']
  else if c = '\r' then ['\\', 'r']
  else if c = '\t' then ['\\', 't']
  else if c = '\x08' then ['\\', 'b']
  else if c = '\x0c' then ['\\', 'f']
  else if c.toNat < 0x20 then
    ['\\', 'u', '0', '0', hexLower (c.toNat / 16), hexLower (c.toNat % 16)]
  else [c]

def escapeList : List Char → List Char
  | [] => []
  | c :: cs => escapeChar c ++ escapeList cs

/-- `json.dumps` rendering of a string (used for values and keys). -/
def serStr (s : String) : List Char := '"' :: escapeList s.data ++ ['"']

mutual

/-- Render a JSON document with `,`/`:` separators and no whitespace, in
the given field order (`serRaw` of a `canon`-sorted document is exactly
`json.dumps(..., separators=(",", ":"), sort_keys=True, ensure_ascii=False)`). -/
def serRaw : Json → List Char
  | .num n => serNum n
  | .str s => serStr s
  | .bool b => if b then ['t', 'r', 'u', 'e'] else ['f', 'a', 'l', 's', 'e']
  | .null => ['n', 'u', 'l', 'l']
  | .arr [] => ['[', ']']
  | .arr (x :: xs) => '[' :: (serRaw x ++ serItems xs) ++ [']']
  | .obj [] => ['\x7b', '\x7d']
  | .obj (kv :: fs) =>
      '\x7b' :: ((serStr kv.1 ++ ':' :: serRaw kv.2) ++ serFields fs) ++ ['\x7d']

def serItems : List Json → List Char
  | [] => []
  | x :: xs => ',' :: (serRaw x ++ serItems xs)

def serFields : List (String × Json) → List Char
  | [] => []
  | kv :: fs => ',' :: ((serStr kv.1 ++ ':' :: serRaw kv.2) ++ serFields fs)

end

/-- The canonical JSON text of a payload:
`json.dumps(data, separators=(",", ":"), sort_keys=True, ensure_ascii=False)`. -/
def canonicalText (j : Json) : List Char := serRaw (canon j)

/-- UTF-8 encoding of one scalar value (Python `str.encode("utf-8")`). -/
def utf8EncodeChar (c : Char) : List Nat :=
  if c.toNat < 0x80 then [c.toNat]
  else if c.toNat < 0x800 then [0xC0 + c.toNat / 64, 0x80 + c.toNat % 64]
  else if c.toNat < 0x10000 then
    [0xE0 + c.toNat / 4096, 0x80 + c.toNat / 64 % 64, 0x80 + c.toNat % 64]
  else
    [0xF0 + c.toNat / 262144, 0x80 + c.toNat / 4096 % 64,
      0x80 + c.toNat / 64 % 64, 0x80 + c.toNat % 64]

def utf8Encode : List Char → List Nat
  | [] => []
  | c :: cs => utf8EncodeChar c ++ utf8Encode cs

/-- `_canonical_json(data)` from license.py: serialize a mapping to
canonical JSON (`sort_keys=True`, separators `","`/`":"`,
`ensure_ascii=False`) and encode the text as UTF-8 bytes. -/
def canonical_json (j : Json) : List Nat := utf8Encode (canonicalText j)

/-- `canonicalize_payload(payload)` from license.py: public alias of
`_canonical_json`. -/
def canonicalize_payload (j : Json) : List Nat := canonical_json j

/-! ### Semantic equality of JSON documents

`SemEq` is Python `==` on JSON-decoded data: objects compare as dicts
(same keys, equal values per key, insertion order irrelevant), arrays
pointwise, scalars by value.  Object key lists are required duplicate-free
exactly as Python dict key sets are. -/

mutual

inductive SemEq : Json → Json → Prop where
  | null : SemEq .null .null
  | bool (b : Bool) : SemEq (.bool b) (.bool b)
  | num (n : Int) : SemEq (.num n) (.num n)
  | str (s : String) : SemEq (.str s) (.str s)
  | arr {xs ys : List Json} : SemEqItems xs ys → SemEq (.arr xs) (.arr ys)
  | obj {l m l2 : List (String × Json)} :
      (l.map Prod.fst).Nodup → SemEqFields l m → m.Perm l2 →
      SemEq (.obj l) (.obj l2)

inductive SemEqItems : List Json → List Json → Prop where
  | nil : SemEqItems [] []
  | cons {x y : Json} {xs ys : List Json} :
      SemEq x y → SemEqItems xs ys → SemEqItems (x :: xs) (y :: ys)

inductive SemEqFields : List (String × Json) → List (String × Json) → Prop where
  | nil : SemEqFields [] []
  | cons {k : String} {v w : Json} {l m : List (String × Json)} :
      SemEq v w → SemEqFields l m → SemEqFields ((k, v) :: l) ((k, w) :: m)

end

theorem canonFields_eq_map (fs : List (String × Json)) :
    canonFields fs = fs.map (fun kv => (kv.1, canon kv.2)) := by
  induction fs with
  | nil => rfl
  | cons kv fs ih => rw [canonFields, ih, List.map_cons]

theorem keys_canonFields (fs : List (String × Json)) :
    (canonFields fs).map Prod.fst = fs.map Prod.fst := by
  rw [canonFields_eq_map, List.map_map]
  rfl

theorem semEqFields_keys :
    ∀ {l m : List (String × Json)}, SemEqFields l m → l.map Prod.fst = m.map Prod.fst
  | _, _, .nil => rfl
  | _, _, .cons _ hs => by
      rw [List.map_cons, List.map_cons, semEqFields_keys hs]

theorem sorted_keyLt_of_sorted_keyLe {l : List (String × Json)}
    (hs : List.Sorted keyLe l) (hn : (l.map Prod.fst).Nodup) :
    List.Sorted keyLt l := by
  have hne : List.Pairwise (fun a b : String × Json => a.1 ≠ b.1) l :=
    List.pairwise_map.mp hn
  exact (hs.and hne).imp fun h => ⟨h.1, h.2⟩

theorem insertionSort_eq_of_perm {l l' : List (String × Json)}
    (h : l.Perm l') (hn : (l.map Prod.fst).Nodup) :
    List.insertionSort keyLe l = List.insertionSort keyLe l' := by
  have hperm : (List.insertionSort keyLe l).Perm (List.insertionSort keyLe l') :=
    (List.perm_insertionSort keyLe l).trans
      (h.trans (List.perm_insertionSort keyLe l').symm)
  have hn' : (l'.map Prod.fst).Nodup := ((h.map Prod.fst).nodup_iff).mp hn
  have hns : ((List.insertionSort keyLe l).map Prod.fst).Nodup :=
    (((List.perm_insertionSort keyLe l).map Prod.fst).nodup_iff).mpr hn
  have hns' : ((List.insertionSort keyLe l').map Prod.fst).Nodup :=
    (((List.perm_insertionSort keyLe l').map Prod.fst).nodup_iff).mpr hn'
  exact List.eq_of_perm_of_sorted hperm
    (sorted_keyLt_of_sorted_keyLe (List.sorted_insertionSort keyLe l) hns)
    (sorted_keyLt_of_sorted_keyLe (List.sorted_insertionSort keyLe l') hns')

mutual

theorem canon_eq_of_semEq : ∀ {a b : Json}, SemEq a b → canon a = canon b
  | _, _, .null => rfl
  | _, _, .bool _ => rfl
  | _, _, .num _ => rfl
  | _, _, .str _ => rfl
  | _, _, .arr h => by
      simp only [canon]
      rw [canonItems_eq_of_semEqItems h]
  | _, _, .obj hn hf hp => by
      simp only [canon]
      rw [canonFields_eq_of_semEqFields hf]
      congr 1
      apply insertionSort_eq_of_perm
      · rw [canonFields_eq_map, canonFields_eq_map]
        exact hp.map _
      · rw [keys_canonFields, ← semEqFields_keys hf]
        exact hn

theorem canonItems_eq_of_semEqItems :
    ∀ {xs ys : List Json}, SemEqItems xs ys → canonItems xs = canonItems ys
  | _, _, .nil => rfl
  | _, _, .cons h hs => by
      rw [canonItems, canonItems, canon_eq_of_semEq h, canonItems_eq_of_semEqItems hs]

theorem canonFields_eq_of_semEqFields :
    ∀ {l m : List (String × Json)}, SemEqFields l m → canonFields l = canonFields m
  | _, _, .nil => rfl
  | _, _, .cons h hs => by
      rw [canonFields, canonFields, canon_eq_of_semEq h,
        canonFields_eq_of_semEqFields hs]

end

/-- C1: for every pair of semantically-equal payload maps (same key-value
contents at every nesting level, regardless of key construction/insertion
order), `canonicalize_payload` returns byte-identical output — JSON with
keys sorted lexicographically at every nesting level, `","`/`":"`
separators without extraneous whitespace, and UTF-8 text with non-ASCII
characters left unescaped (those format properties are the definition of
`serRaw`/`canon`/`utf8Encode`). -/
theorem canonicalize_payload_stable (a b : Json) (h : SemEq a b) :
    canonicalize_payload a = canonicalize_payload b := by
  unfold canonicalize_payload canonical_json canonicalText
  rw [canon_eq_of_semEq h]

/-- Witness for C1 at a concrete pair of key-permuted equal maps holding a
non-ASCII value. -/
theorem canonicalize_payload_stable_witness :
    SemEq (Json.obj [("b", .num 2), ("a", .str "é")])
      (Json.obj [("a", .str "é"), ("b", .num 2)]) ∧
    canonicalize_payload (Json.obj [("b", .num 2), ("a", .str "é")]) =
      canonicalize_payload (Json.obj [("a", .str "é"), ("b", .num 2)]) := by
  have hsem : SemEq (Json.obj [("b", .num 2), ("a", .str "é")])
      (Json.obj [("a", .str "é"), ("b", .num 2)]) :=
    SemEq.obj (by decide)
      (SemEqFields.cons (SemEq.num 2) (SemEqFields.cons (SemEq.str "é") SemEqFields.nil))
      (List.Perm.swap ("a", Json.str "é") ("b", Json.num 2) [])
  exact ⟨hsem, canonicalize_payload_stable _ _ hsem⟩

/-! ### base64url (Python `base64.urlsafe_b64encode` / `urlsafe_b64decode`)

The decoder is modelled on well-formed inputs: non-alphabet characters are
rejected outright where CPython's lenient `binascii` mode would first
discard some of them, and `=` is accepted only as trailing padding.  The
encoder output never contains such characters, so the round trip is
unaffected. -/

def b64Char (n : Nat) : Char :=
  if n < 26 then Char.ofNat (65 + n)
  else if n < 52 then Char.ofNat (97 + (n - 26))
  else if n < 62 then Char.ofNat (48 + (n - 52))
  else if n = 62 then '-'
  else '_'

def b64Val (c : Char) : Option Nat :=
  if 65 ≤ c.toNat ∧ c.toNat ≤ 90 then some (c.toNat - 65)
  else if 97 ≤ c.toNat ∧ c.toNat ≤ 122 then some (26 + (c.toNat - 97))
  else if 48 ≤ c.toNat ∧ c.toNat ≤ 57 then some (52 + (c.toNat - 48))
  else if c = '-' then some 62
  else if c = '_' then some 63
  else none

def urlsafe_b64encode : List Nat → List Char
  | [] => []
  | [b0] => [b64Char (b0 / 4), b64Char (b0 % 4 * 16), '=', '=']
  | [b0, b1] =>
      [b64Char (b0 / 4), b64Char (b0 % 4 * 16 + b1 / 16), b64Char (b1 % 16 * 4), '=']
  | b0 :: b1 :: b2 :: rest =>
      b64Char (b0 / 4) :: b64Char (b0 % 4 * 16 + b1 / 16) ::
        b64Char (b1 % 16 * 4 + b2 / 64) :: b64Char (b2 % 64) :: urlsafe_b64encode rest

def urlsafe_b64decode : List Char → Option (List Nat)
  | [] => some []
  | c0 :: c1 :: c2 :: c3 :: rest =>
      match b64Val c0, b64Val c1 with
      | some v0, some v1 =>
          if c2 = '=' then
            if c3 = '=' ∧ rest = [] then some [v0 * 4 + v1 / 16] else none
          else
            match b64Val c2 with
            | some v2 =>
                if c3 = '=' then
                  if rest = [] then some [v0 * 4 + v1 / 16, v1 % 16 * 16 + v2 / 4]
                  else none
                else
                  match b64Val c3 with
                  | some v3 =>
                      (urlsafe_b64decode rest).map fun tail =>
                        (v0 * 4 + v1 / 16) :: (v1 % 16 * 16 + v2 / 4) ::
                          (v2 % 4 * 64 + v3) :: tail
                  | none => none
            | none => none
      | _, _ => none
  | _ => none

/-! ### UTF-8 decoding (Python `bytes.decode("utf-8")`) -/

def mkCharRest (v : Nat) (rest : List Nat) : Option (Char × List Nat) :=
  if Char.isValidCharNat v then some (Char.ofNat v, rest) else none

/-- Decode one UTF-8 scalar value, rejecting truncated sequences, stray
continuation bytes, overlong encodings and surrogates (as CPython's strict
UTF-8 codec does). -/
def utf8DecodeOne : List Nat → Option (Char × List Nat)
  | [] => none
  | b0 :: rest =>
    if b0 < 0x80 then mkCharRest b0 rest
    else if b0 < 0xC2 then none
    else if b0 < 0xE0 then
      match rest with
      | b1 :: rest' =>
          if 0x80 ≤ b1 ∧ b1 < 0xC0 then
            mkCharRest ((b0 - 0xC0) * 64 + (b1 - 0x80)) rest'
          else none
      | [] => none
    else if b0 < 0xF0 then
      match rest with
      | b1 :: b2 :: rest' =>
          if (0x80 ≤ b1 ∧ b1 < 0xC0) ∧ (0x80 ≤ b2 ∧ b2 < 0xC0) then
            if (b0 - 0xE0) * 4096 + (b1 - 0x80) * 64 + (b2 - 0x80) < 0x800 then none
            else mkCharRest ((b0 - 0xE0) * 4096 + (b1 - 0x80) * 64 + (b2 - 0x80)) rest'
          else none
      | _ => none
    else if b0 < 0xF5 then
      match rest with
      | b1 :: b2 :: b3 :: rest' =>
          if (0x80 ≤ b1 ∧ b1 < 0xC0) ∧ (0x80 ≤ b2 ∧ b2 < 0xC0) ∧
              (0x80 ≤ b3 ∧ b3 < 0xC0) then
            if (b0 - 0xF0) * 262144 + (b1 - 0x80) * 4096 +
                (b2 - 0x80) * 64 + (b3 - 0x80) < 0x10000 then none
            else mkCharRest ((b0 - 0xF0) * 262144 + (b1 - 0x80) * 4096 +
              (b2 - 0x80) * 64 + (b3 - 0x80)) rest'
          else none
      | _ => none
    else none

def utf8DecodeAux : Nat → List Nat → Option (List Char)
  | _, [] => some []
  | 0, _ :: _ => none
  | fuel + 1, bs =>
      match utf8DecodeOne bs with
      | some (c, rest) => (utf8DecodeAux fuel rest).map (c :: ·)
      | none => none

def utf8Decode (bs : List Nat) : Option (List Char) := utf8DecodeAux bs.length bs

/-! ### JSON parsing (`json.loads`)

Modelled for the grammar that canonical serialization emits plus the
structural rejections the codec relies on.  Documented deviations, all on
adversarial inputs only: no whitespace skipping (canonical JSON contains
none), numbers are integer-only (float syntax, `NaN`/`Infinity` and
exponents are out of the integer model), leading zeros are not rejected,
and `\uXXXX` escapes denoting UTF-16 surrogates are rejected rather than
pair-combined. -/

def hexVal (c : Char) : Option Nat :=
  if 48 ≤ c.toNat ∧ c.toNat ≤ 57 then some (c.toNat - 48)
  else if 97 ≤ c.toNat ∧ c.toNat ≤ 102 then some (c.toNat - 87)
  else if 65 ≤ c.toNat ∧ c.toNat ≤ 70 then some (c.toNat - 55)
  else none

def unescapeChar (c : Char) : Option Char :=
  if c = '"' then some '"'
  else if c = '\\' then some '\\'
  else if c = '/' then some '/'
  else if c = 'b' then some '\x08'
  else if c = 'f' then some '\x0c'
  else if c = 'n' then some '\n'
  else if c = 'r' then some '\r'
  else if c = 't' then some '\t'
  else none

def parseStringChars : List Char → Option (List Char × List Char)
  | [] => none
  | c :: rest =>
    if c = '"' then some ([], rest)
    else if c = '\\' then
      match rest with
      | [] => none
      | e :: rest' =>
        if e = 'u' then
          match rest' with
          | h1 :: h2 :: h3 :: h4 :: rest2 =>
            match hexVal h1, hexVal h2, hexVal h3, hexVal h4 with
            | some a, some b, some d, some g =>
                if Char.isValidCharNat (a * 4096 + b * 256 + d * 16 + g) then
                  (parseStringChars rest2).map fun p =>
                    (Char.ofNat (a * 4096 + b * 256 + d * 16 + g) :: p.1, p.2)
                else none
            | _, _, _, _ => none
          | _ => none
        else
          match unescapeChar e with
          | some u => (parseStringChars rest').map fun p => (u :: p.1, p.2)
          | none => none
    else if c.toNat < 0x20 then none
    else (parseStringChars rest).map fun p => (c :: p.1, p.2)

def parseDigits : List Char → List Nat × List Char
  | [] => ([], [])
  | c :: rest =>
    if 48 ≤ c.toNat ∧ c.toNat ≤ 57 then
      let p := parseDigits rest
      ((c.toNat - 48) :: p.1, p.2)
    else ([], c :: rest)

def digitsVal (ds : List Nat) : Nat := ds.foldl (fun a d => a * 10 + d) 0

mutual

def parseVal : Nat → List Char → Option (Json × List Char)
  | 0, _ => none
  | fuel + 1, cs =>
    match cs with
    | [] => none
    | c :: rest =>
      if 48 ≤ c.toNat ∧ c.toNat ≤ 57 then
        match parseDigits (c :: rest) with
        | ([], _) => none
        | (ds, r) => some (.num (digitsVal ds), r)
      else if c = '-' then
        match parseDigits rest with
        | ([], _) => none
        | (ds, r) => some (.num (-(digitsVal ds : Int)), r)
      else if c = '"' then
        (parseStringChars rest).map fun p => (.str (String.mk p.1), p.2)
      else if c = '[' then
        match rest with
        | ']' :: r => some (.arr [], r)
        | _ => (parseItems fuel rest).map fun p => (.arr p.1, p.2)
      else if c = '\x7b' then
        match rest with
        | '\x7d' :: r => some (.obj [], r)
        | _ => (parseFields fuel rest).map fun p => (.obj p.1, p.2)
      else if c = 'n' then
        match rest with
        | 'u' :: 'l' :: 'l' :: r => some (.null, r)
        | _ => none
      else if c = 't' then
        match rest with
        | 'r' :: 'u' :: 'e' :: r => some (.bool true, r)
        | _ => none
      else if c = 'f' then
        match rest with
        | 'a' :: 'l' :: 's' :: 'e' :: r => some (.bool false, r)
        | _ => none
      else none

def parseItems : Nat → List Char → Option (List Json × List Char)
  | 0, _ => none
  | fuel + 1, cs =>
    (parseVal fuel cs).bind fun p =>
      match p.2 with
      | [] => none
      | c :: r =>
        if c = ',' then (parseItems fuel r).map fun q => (p.1 :: q.1, q.2)
        else if c = ']' then some ([p.1], r)
        else none

def parseFields : Nat → List Char → Option (List (String × Json) × List Char)
  | 0, _ => none
  | fuel + 1, cs =>
    match cs with
    | [] => none
    | c :: rest =>
      if c = '"' then
        (parseStringChars rest).bind fun ks =>
          match ks.2 with
          | [] => none
          | c2 :: rest2 =>
            if c2 = ':' then
              (parseVal fuel rest2).bind fun p =>
                match p.2 with
                | [] => none
                | c3 :: rest3 =>
                  if c3 = ',' then
                    (parseFields fuel rest3).map fun q =>
                      ((String.mk ks.1, p.1) :: q.1, q.2)
                  else if c3 = '\x7d' then some ([(String.mk ks.1, p.1)], rest3)
                  else none
            else none
      else none

end

/-- `json.loads` on a whole document: the parse must consume all input. -/
def parseJsonText (cs : List Char) : Option Json :=
  match parseVal cs.length cs with
  | some (j, []) => some j
  | _ => none

/-! ### Round-trip correctness of the byte-level codecs -/

theorem char_toNat_valid (c : Char) :
    c.toNat < 0xd800 ∨ (0xdfff < c.toNat ∧ c.toNat < 0x110000) := by
  rcases c.valid with h | ⟨h1, h2⟩
  · left
    exact UInt32.toNat_lt_of_lt (by decide) h
  · right
    exact ⟨UInt32.lt_toNat_of_lt (by decide) h1, UInt32.toNat_lt_of_lt (by decide) h2⟩

theorem b64Val_b64Char : ∀ n, n < 64 → b64Val (b64Char n) = some n := by decide

theorem b64Char_ne_pad : ∀ n, n < 64 → b64Char n ≠ '=' := by decide

theorem urlsafe_b64decode_encode :
    ∀ bs : List Nat, (∀ b ∈ bs, b < 256) →
      urlsafe_b64decode (urlsafe_b64encode bs) = some bs
  | [] => fun _ => rfl
  | [b0] => fun h => by
      have hb0 : b0 < 256 := h b0 (by simp)
      have h1 : b64Val (b64Char (b0 / 4)) = some (b0 / 4) := b64Val_b64Char _ (by omega)
      have h2 : b64Val (b64Char (b0 % 4 * 16)) = some (b0 % 4 * 16) :=
        b64Val_b64Char _ (by omega)
      simp [urlsafe_b64encode, urlsafe_b64decode, h1, h2]
      omega
  | [b0, b1] => fun h => by
      have hb0 : b0 < 256 := h b0 (by simp)
      have hb1 : b1 < 256 := h b1 (by simp)
      have h1 : b64Val (b64Char (b0 / 4)) = some (b0 / 4) := b64Val_b64Char _ (by omega)
      have h2 : b64Val (b64Char (b0 % 4 * 16 + b1 / 16)) = some (b0 % 4 * 16 + b1 / 16) :=
        b64Val_b64Char _ (by omega)
      have h3 : b64Val (b64Char (b1 % 16 * 4)) = some (b1 % 16 * 4) :=
        b64Val_b64Char _ (by omega)
      have hne : b64Char (b1 % 16 * 4) ≠ '=' := b64Char_ne_pad _ (by omega)
      simp [urlsafe_b64encode, urlsafe_b64decode, h1, h2, h3, hne]
      omega
  | b0 :: b1 :: b2 :: rest => fun h => by
      have hb0 : b0 < 256 := h b0 (by simp)
      have hb1 : b1 < 256 := h b1 (by simp)
      have hb2 : b2 < 256 := h b2 (by simp)
      have h1 : b64Val (b64Char (b0 / 4)) = some (b0 / 4) := b64Val_b64Char _ (by omega)
      have h2 : b64Val (b64Char (b0 % 4 * 16 + b1 / 16)) = some (b0 % 4 * 16 + b1 / 16) :=
        b64Val_b64Char _ (by omega)
      have h3 : b64Val (b64Char (b1 % 16 * 4 + b2 / 64)) = some (b1 % 16 * 4 + b2 / 64) :=
        b64Val_b64Char _ (by omega)
      have h4 : b64Val (b64Char (b2 % 64)) = some (b2 % 64) := b64Val_b64Char _ (by omega)
      have hne2 : b64Char (b1 % 16 * 4 + b2 / 64) ≠ '=' := b64Char_ne_pad _ (by omega)
      have hne3 : b64Char (b2 % 64) ≠ '=' := b64Char_ne_pad _ (by omega)
      have ih := urlsafe_b64decode_encode rest (fun b hb => h b (by simp [hb]))
      simp [urlsafe_b64encode, urlsafe_b64decode, h1, h2, h3, h4, hne2, hne3, ih]
      omega

theorem mkCharRest_toNat (c : Char) (rest : List Nat) :
    mkCharRest c.toNat rest = some (c, rest) := by
  unfold mkCharRest
  rw [if_pos (char_toNat_valid c), Char.ofNat_toNat]

theorem utf8DecodeOne_encodeChar (c : Char) (rest : List Nat) :
    utf8DecodeOne (utf8EncodeChar c ++ rest) = some (c, rest) := by
  have hv := char_toNat_valid c
  unfold utf8EncodeChar
  by_cases h1 : c.toNat < 0x80
  · simp only [if_pos h1, List.cons_append, List.nil_append]
    simp only [utf8DecodeOne]
    rw [if_pos h1, mkCharRest_toNat]
  · by_cases h2 : c.toNat < 0x800
    · simp only [if_neg h1, if_pos h2, List.cons_append, List.nil_append]
      simp only [utf8DecodeOne]
      rw [if_neg (by omega), if_neg (by omega), if_pos (by omega), if_pos (by omega)]
      have he : (0xC0 + c.toNat / 64 - 0xC0) * 64 + (0x80 + c.toNat % 64 - 0x80) = c.toNat := by
        omega
      rw [he, mkCharRest_toNat]
    · by_cases h3 : c.toNat < 0x10000
      · simp only [if_neg h1, if_neg h2, if_pos h3, List.cons_append, List.nil_append]
        simp only [utf8DecodeOne]
        rw [if_neg (by omega), if_neg (by omega)]
        rw [if_neg (by omega), if_pos (by omega), if_pos (by omega), if_neg (by omega)]
        have he : (0xE0 + c.toNat / 4096 - 0xE0) * 4096 + (0x80 + c.toNat / 64 % 64 - 0x80) * 64 +
            (0x80 + c.toNat % 64 - 0x80) = c.toNat := by omega
        rw [he, mkCharRest_toNat]
      · simp only [if_neg h1, if_neg h2, if_neg h3, List.cons_append, List.nil_append]
        simp only [utf8DecodeOne]
        rw [if_neg (by omega), if_neg (by omega)]
        rw [if_neg (by omega), if_neg (by omega), if_pos (by omega)]
        rw [if_pos (by omega), if_neg (by omega)]
        have he : (0xF0 + c.toNat / 262144 - 0xF0) * 262144 +
            (0x80 + c.toNat / 4096 % 64 - 0x80) * 4096 +
            (0x80 + c.toNat / 64 % 64 - 0x80) * 64 + (0x80 + c.toNat % 64 - 0x80) = c.toNat := by
          omega
        rw [he, mkCharRest_toNat]

theorem utf8EncodeChar_length_pos (c : Char) : 0 < (utf8EncodeChar c).length := by
  unfold utf8EncodeChar
  split_ifs <;> simp

theorem utf8DecodeAux_encode :
    ∀ (cs : List Char) (fuel : Nat),
      (utf8Encode cs).length ≤ fuel → utf8DecodeAux fuel (utf8Encode cs) = some cs := by
  intro cs
  induction cs with
  | nil => intro fuel _; simp [utf8Encode, utf8DecodeAux]
  | cons c cs ih =>
    intro fuel hlen
    obtain ⟨b, bs, heq⟩ : ∃ b bs, utf8EncodeChar c = b :: bs := by
      cases hh : utf8EncodeChar c with
      | nil =>
        have := utf8EncodeChar_length_pos c
        rw [hh] at this
        simp at this
      | cons b bs => exact ⟨b, bs, rfl⟩
    have hlc : 0 < (utf8EncodeChar c).length := utf8EncodeChar_length_pos c
    rw [utf8Encode] at hlen ⊢
    rw [List.length_append] at hlen
    cases fuel with
    | zero => omega
    | succ f =>
      rw [heq, List.cons_append]
      rw [utf8DecodeAux]
      · rw [← List.cons_append, ← heq, utf8DecodeOne_encodeChar]
        show (utf8DecodeAux f (utf8Encode cs)).map (c :: ·) = some (c :: cs)
        rw [ih f (by omega)]
        rfl
      · simp

theorem utf8Decode_encode (cs : List Char) : utf8Decode (utf8Encode cs) = some cs :=
  utf8DecodeAux_encode cs _ le_rfl

theorem utf8EncodeChar_lt_256 (c : Char) : ∀ b ∈ utf8EncodeChar c, b < 256 := by
  have hv := char_toNat_valid c
  unfold utf8EncodeChar
  split_ifs with h1 h2 h3
  · intro b hb
    simp at hb
    omega
  · intro b hb
    simp at hb
    rcases hb with rfl | rfl <;> omega
  · intro b hb
    simp at hb
    rcases hb with rfl | rfl | rfl <;> omega
  · intro b hb
    simp at hb
    rcases hb with rfl | rfl | rfl | rfl <;> omega

theorem utf8Encode_lt_256 : ∀ cs : List Char, ∀ b ∈ utf8Encode cs, b < 256
  | [] => by simp [utf8Encode]
  | c :: cs => by
      intro b hb
      rw [utf8Encode] at hb
      rcases List.mem_append.mp hb with h | h
      · exact utf8EncodeChar_lt_256 c b h
      · exact utf8Encode_lt_256 cs b h


theorem toNat_ofNat_valid {n : Nat} (h : Char.isValidCharNat n) : (Char.ofNat n).toNat = n := by
  unfold Char.ofNat
  rw [dif_pos h]
  rfl

theorem hexVal_hexLower : ∀ m, m < 16 → hexVal (hexLower m) = some m := by decide

theorem parseStringChars_escape :
    ∀ (cs tail : List Char),
      parseStringChars (escapeList cs ++ ('"' :: tail)) = some (cs, tail)
  | [], tail => by
      rw [escapeList, List.nil_append, parseStringChars.eq_def]
      simp
  | c :: cs, tail => by
      have ih := parseStringChars_escape cs tail
      rw [escapeList, List.append_assoc]
      by_cases h1 : c = '"'
      · subst h1
        simp only [escapeChar, reduceIte, List.cons_append, List.nil_append]
        rw [parseStringChars.eq_def]
        simp +decide [unescapeChar, ih]
      · by_cases h2 : c = '\\'
        · subst h2
          simp only [escapeChar, reduceIte, List.cons_append, List.nil_append]
          rw [parseStringChars.eq_def]
          simp +decide [unescapeChar, ih]
        · by_cases h3 : c = '\n'
          · subst h3
            simp only [escapeChar, reduceIte, List.cons_append, List.nil_append]
            rw [parseStringChars.eq_def]
            simp +decide [unescapeChar, ih]
          · by_cases h4 : c = '\r'
            · subst h4
              simp only [escapeChar, reduceIte, List.cons_append, List.nil_append]
              rw [parseStringChars.eq_def]
              simp +decide [unescapeChar, ih]
            · by_cases h5 : c = '\t'
              · subst h5
                simp only [escapeChar, reduceIte, List.cons_append, List.nil_append]
                rw [parseStringChars.eq_def]
                simp +decide [unescapeChar, ih]
              · by_cases h6 : c = '\x08'
                · subst h6
                  simp only [escapeChar, reduceIte, List.cons_append, List.nil_append]
                  rw [parseStringChars.eq_def]
                  simp +decide [unescapeChar, ih]
                · by_cases h7 : c = '\x0c'
                  · subst h7
                    simp only [escapeChar, reduceIte, List.cons_append, List.nil_append]
                    rw [parseStringChars.eq_def]
                    simp +decide [unescapeChar, ih]
                  · by_cases h8 : c.toNat < 0x20
                    · have hhex1 := hexVal_hexLower (c.toNat / 16) (by omega)
                      have hhex2 := hexVal_hexLower (c.toNat % 16) (by omega)
                      simp only [escapeChar, if_neg h1, if_neg h2, if_neg h3, if_neg h4,
                        if_neg h5, if_neg h6, if_neg h7, if_pos h8, List.cons_append,
                        List.nil_append]
                      rw [parseStringChars.eq_def]
                      simp +decide only [hhex1, hhex2]
                      rw [show hexVal '0' = some 0 from rfl]
                      have harith : 0 * 4096 + 0 * 256 + c.toNat / 16 * 16 + c.toNat % 16 =
                          c.toNat := by omega
                      simp only [harith]
                      rw [if_pos (by left; omega : Char.isValidCharNat c.toNat),
                        Char.ofNat_toNat, ih]
                      rfl
                    · simp only [escapeChar, if_neg h1, if_neg h2, if_neg h3, if_neg h4,
                        if_neg h5, if_neg h6, if_neg h7, if_neg h8, List.cons_append,
                        List.nil_append]
                      rw [parseStringChars.eq_def]
                      simp [h1, h2, h8, ih]


/-! ### Number, size and boundary lemmas for the parser round trip -/

def numBoundary : List Char → Prop
  | [] => True
  | c :: _ => ¬ (48 ≤ c.toNat ∧ c.toNat ≤ 57)

theorem toDecimal_ne_nil (n : Nat) : toDecimal n ≠ [] := by
  rw [toDecimal_unfold]
  split_ifs <;> simp

theorem toDecimal_digits (n : Nat) : ∀ c ∈ toDecimal n, 48 ≤ c.toNat ∧ c.toNat ≤ 57 := by
  by_cases h : n < 10
  · rw [toDecimal_unfold, if_pos h]
    intro c hc
    simp at hc
    subst hc
    rw [toNat_ofNat_valid (by left; omega)]
    omega
  · rw [toDecimal_unfold, if_neg h]
    intro c hc
    rcases List.mem_append.mp hc with h1 | h1
    · exact toDecimal_digits (n / 10) c h1
    · simp at h1
      subst h1
      rw [toNat_ofNat_valid (by left; omega)]
      omega
termination_by n
decreasing_by exact Nat.div_lt_self (by omega) (by omega)

theorem parseDigits_spec :
    ∀ (ds rest : List Char), (∀ c ∈ ds, 48 ≤ c.toNat ∧ c.toNat ≤ 57) → numBoundary rest →
      parseDigits (ds ++ rest) = (ds.map (fun c => c.toNat - 48), rest)
  | [], [] => by
      intro _ _
      simp [parseDigits]
  | [], c :: rest => by
      intro _ hb
      simp only [List.nil_append, List.map_nil]
      simp only [parseDigits]
      rw [if_neg hb]
  | d :: ds, rest => by
      intro hds hb
      rw [List.cons_append]
      simp only [parseDigits]
      rw [if_pos (hds d (by simp))]
      rw [parseDigits_spec ds rest (fun c hc => hds c (by simp [hc])) hb]
      simp

theorem digitsVal_toDecimal_general (n : Nat) :
    ∀ acc : Nat,
      ((toDecimal n).map (fun c => c.toNat - 48)).foldl (fun a d => a * 10 + d) acc =
        acc * 10 ^ (toDecimal n).length + n := by
  by_cases h : n < 10
  · intro acc
    rw [toDecimal_unfold, if_pos h]
    simp [toNat_ofNat_valid (show Char.isValidCharNat (48 + n) by left; omega)]
  · intro acc
    rw [toDecimal_unfold, if_neg h]
    rw [List.map_append, List.foldl_append, digitsVal_toDecimal_general (n / 10) acc]
    simp only [List.map_cons, List.map_nil, List.foldl_cons, List.foldl_nil,
      List.length_append, List.length_cons, List.length_nil]
    rw [toNat_ofNat_valid (show Char.isValidCharNat (48 + n % 10) by left; omega)]
    have hd : 48 + n % 10 - 48 = n % 10 := by omega
    rw [hd, pow_succ]
    have hmod : n / 10 * 10 + n % 10 = n := by omega
    calc (acc * 10 ^ (toDecimal (n / 10)).length + n / 10) * 10 + n % 10
        = acc * (10 ^ (toDecimal (n / 10)).length * 10) + (n / 10 * 10 + n % 10) := by ring
      _ = acc * (10 ^ (toDecimal (n / 10)).length * 10) + n := by rw [hmod]
termination_by n
decreasing_by exact Nat.div_lt_self (by omega) (by omega)

theorem digitsVal_toDecimal (n : Nat) :
    digitsVal ((toDecimal n).map (fun c => c.toNat - 48)) = n := by
  unfold digitsVal
  rw [digitsVal_toDecimal_general]
  simp

mutual

def sizeJ : Json → Nat
  | .arr xs => 1 + sizeItems xs
  | .obj fs => 1 + sizeFields fs
  | _ => 1

def sizeItems : List Json → Nat
  | [] => 0
  | x :: xs => sizeJ x + 1 + sizeItems xs

def sizeFields : List (String × Json) → Nat
  | [] => 0
  | kv :: fs => sizeJ kv.2 + 1 + sizeFields fs

end

theorem sizeJ_pos (j : Json) : 1 ≤ sizeJ j := by
  cases j <;> simp [sizeJ]

theorem serRaw_head (j : Json) : ∃ c cs', serRaw j = c :: cs' ∧ c ≠ ']' := by
  cases j with
  | null => exact ⟨'n', ['u', 'l', 'l'], by simp [serRaw], by decide⟩
  | bool b =>
    cases b
    · exact ⟨'f', ['a', 'l', 's', 'e'], by simp [serRaw], by decide⟩
    · exact ⟨'t', ['r', 'u', 'e'], by simp [serRaw], by decide⟩
  | num n =>
    by_cases h : n < 0
    · exact ⟨'-', toDecimal n.natAbs, by simp [serRaw, serNum, if_pos h], by decide⟩
    · obtain ⟨d, ds, hd⟩ : ∃ d ds, toDecimal n.natAbs = d :: ds := by
        cases hh : toDecimal n.natAbs with
        | nil => exact absurd hh (toDecimal_ne_nil _)
        | cons d ds => exact ⟨d, ds, rfl⟩
      have hdig := toDecimal_digits n.natAbs d (by rw [hd]; simp)
      refine ⟨d, ds, by simp [serRaw, serNum, if_neg h, hd], ?_⟩
      intro hcontra
      subst hcontra
      have h93 : (']' : Char).toNat = 93 := rfl
      omega
  | str s => exact ⟨'"', escapeList s.data ++ ['"'], by simp [serRaw, serStr], by decide⟩
  | arr items =>
    cases items with
    | nil => exact ⟨'[', [']'], by simp [serRaw], by decide⟩
    | cons x xs =>
        exact ⟨'[', serRaw x ++ (serItems xs ++ [']']), by simp [serRaw], by decide⟩
  | obj fields =>
    cases fields with
    | nil => exact ⟨'\x7b', ['\x7d'], by simp [serRaw], by decide⟩
    | cons kv fs =>
        exact ⟨'\x7b', serStr kv.1 ++ ':' :: (serRaw kv.2 ++ (serFields fs ++ ['\x7d'])),
          by simp [serRaw], by decide⟩

theorem string_mk_data (s : String) : String.mk s.data = s := rfl

theorem numBoundary_close_items (xs : List Json) (rest : List Char) :
    numBoundary (serItems xs ++ (']' :: rest)) := by
  cases xs with
  | nil => simp [serItems, numBoundary]
  | cons y ys => simp [serItems, numBoundary]

theorem numBoundary_close_fields (fs : List (String × Json)) (rest : List Char) :
    numBoundary (serFields fs ++ ('\x7d' :: rest)) := by
  cases fs with
  | nil => simp [serFields, numBoundary]
  | cons g gs => simp [serFields, numBoundary]

theorem parse_adequate : ∀ fuel : Nat,
    (∀ j rest, sizeJ j ≤ fuel → numBoundary rest →
        parseVal fuel (serRaw j ++ rest) = some (j, rest)) ∧
    (∀ x xs rest, sizeItems (x :: xs) ≤ fuel →
        parseItems fuel (serRaw x ++ (serItems xs ++ (']' :: rest))) = some (x :: xs, rest)) ∧
    (∀ kv fs rest, sizeFields (kv :: fs) ≤ fuel →
        parseFields fuel
            ('"' :: (escapeList kv.1.data ++ ('"' :: (':' :: (serRaw kv.2 ++
              (serFields fs ++ ('\x7d' :: rest))))))) = some (kv :: fs, rest)) := by
  intro fuel
  induction fuel with
  | zero =>
    refine ⟨fun j rest hsz _ => absurd hsz (by have := sizeJ_pos j; omega), ?_, ?_⟩
    · intro x xs rest hsz
      have hp := sizeJ_pos x
      simp only [sizeItems] at hsz
      omega
    · intro kv fs rest hsz
      have hp := sizeJ_pos kv.2
      simp only [sizeFields] at hsz
      omega
  | succ fuel ih =>
    obtain ⟨ihv, ihi, ihf⟩ := ih
    refine ⟨?_, ?_, ?_⟩
    · -- parseVal
      intro j rest hsz hb
      cases j with
      | null =>
        simp only [serRaw, List.cons_append, List.nil_append]
        simp +decide [parseVal]
      | bool b =>
        cases b with
        | false =>
          simp only [serRaw, List.cons_append, List.nil_append]
          simp +decide [parseVal]
        | true =>
          simp only [serRaw, List.cons_append, List.nil_append]
          simp +decide [parseVal]
      | str s =>
        simp only [serRaw, serStr, List.cons_append, List.append_assoc, List.nil_append]
        simp +decide [parseVal, parseStringChars_escape, string_mk_data]
      | num n =>
        obtain ⟨d, ds, hd⟩ : ∃ d ds, toDecimal n.natAbs = d :: ds := by
          cases hh : toDecimal n.natAbs with
          | nil => exact absurd hh (toDecimal_ne_nil _)
          | cons d ds => exact ⟨d, ds, rfl⟩
        have hdigd := toDecimal_digits n.natAbs d (by rw [hd]; simp)
        have hpd := parseDigits_spec (toDecimal n.natAbs) rest (toDecimal_digits n.natAbs) hb
        have hmap : (toDecimal n.natAbs).map (fun c => c.toNat - 48) =
            (d.toNat - 48) :: ds.map (fun c => c.toNat - 48) := by
          rw [hd]
          simp
        have hdv2 : digitsVal ((d.toNat - 48) :: ds.map (fun c => c.toNat - 48)) = n.natAbs := by
          rw [← hmap, digitsVal_toDecimal]
        by_cases hneg : n < 0
        · have hn : -(n.natAbs : Int) = n := by omega
          simp only [serRaw, serNum, if_pos hneg, List.cons_append]
          simp +decide only [parseVal]
          rw [hpd, hmap]
          simp [hdv2, abs_of_nonpos (le_of_lt hneg)]
        · have hn : (n.natAbs : Int) = n := by omega
          simp only [serRaw, serNum, if_neg hneg]
          rw [hd, List.cons_append]
          simp +decide only [parseVal]
          rw [if_pos (⟨hdigd.1, hdigd.2⟩ : 48 ≤ d.toNat ∧ d.toNat ≤ 57)]
          rw [← List.cons_append, ← hd, hpd, hmap]
          simp [hdv2, abs_of_nonneg (show (0 : Int) ≤ n by omega)]
      | arr items =>
        cases items with
        | nil =>
          simp only [serRaw, List.cons_append, List.nil_append]
          simp +decide [parseVal]
        | cons x xs =>
          obtain ⟨c, cs', hc, hcne⟩ := serRaw_head x
          simp only [serRaw, List.cons_append, List.append_assoc, List.nil_append]
          simp +decide only [parseVal]
          rw [hc, List.cons_append]
          have hsz' : sizeItems (x :: xs) ≤ fuel := by
            simp only [sizeJ] at hsz
            omega
          have hitems := ihi x xs rest hsz'
          rw [hc, List.cons_append] at hitems
          simp [hcne, hitems]
      | obj fields =>
        cases fields with
        | nil =>
          simp only [serRaw, List.cons_append, List.nil_append]
          simp +decide [parseVal]
        | cons kv fs =>
          simp only [serRaw, serStr, List.cons_append, List.append_assoc, List.nil_append]
          simp +decide only [parseVal]
          have hsz' : sizeFields (kv :: fs) ≤ fuel := by
            simp only [sizeJ] at hsz
            omega
          have hflds := ihf kv fs rest hsz'
          simp [hflds]
    · -- parseItems
      intro x xs rest hsz
      have hbound := numBoundary_close_items xs rest
      have hszx : sizeJ x ≤ fuel := by
        simp only [sizeItems] at hsz
        omega
      have hv := ihv x (serItems xs ++ (']' :: rest)) hszx hbound
      simp only [parseItems]
      rw [hv]
      cases xs with
      | nil =>
        simp [serItems]
      | cons y ys =>
        simp only [serItems, List.cons_append]
        have hsz2 : sizeItems (y :: ys) ≤ fuel := by
          have := sizeJ_pos x
          simp only [sizeItems] at hsz ⊢
          omega
        have hrec := ihi y ys rest hsz2
        simp +decide [hrec]
    · -- parseFields
      intro kv fs rest hsz
      simp only [parseFields]
      simp +decide [parseStringChars_escape]
      have hbound := numBoundary_close_fields fs rest
      have hszv : sizeJ kv.2 ≤ fuel := by
        simp only [sizeFields] at hsz
        omega
      have hv := ihv kv.2 (serFields fs ++ ('\x7d' :: rest)) hszv hbound
      rw [hv]
      cases fs with
      | nil =>
        simp [serFields, string_mk_data]
      | cons g gs =>
        simp only [serFields, List.cons_append]
        have hsz2 : sizeFields (g :: gs) ≤ fuel := by
          have := sizeJ_pos kv.2
          simp only [sizeFields] at hsz ⊢
          omega
        have hrec := ihf g gs rest hsz2
        simp +decide [hrec, string_mk_data, serStr, List.append_assoc]

mutual

theorem sizeJ_le : ∀ j : Json, sizeJ j ≤ (serRaw j).length
  | .null => by simp [sizeJ, serRaw]
  | .bool b => by cases b <;> simp [sizeJ, serRaw]
  | .num n => by
      have h := toDecimal_ne_nil n.natAbs
      have hpos : 0 < (toDecimal n.natAbs).length := List.length_pos.mpr h
      simp only [sizeJ, serRaw, serNum]
      split_ifs <;> simp <;> omega
  | .str s => by simp [sizeJ, serRaw, serStr]
  | .arr [] => by simp [sizeJ, sizeItems, serRaw]
  | .arr (x :: xs) => by
      have h1 := sizeJ_le x
      have h2 := sizeItems_le xs
      simp only [sizeJ, sizeItems, serRaw, List.length_append, List.length_cons]
      omega
  | .obj [] => by simp [sizeJ, sizeFields, serRaw]
  | .obj (kv :: fs) => by
      have h1 := sizeJ_le kv.2
      have h2 := sizeFields_le fs
      simp only [sizeJ, sizeFields, serRaw, List.length_append, List.length_cons]
      omega

theorem sizeItems_le : ∀ xs : List Json, sizeItems xs ≤ (serItems xs).length
  | [] => by simp [sizeItems, serItems]
  | x :: xs => by
      have h1 := sizeJ_le x
      have h2 := sizeItems_le xs
      simp only [sizeItems, serItems, List.length_append, List.length_cons]
      omega

theorem sizeFields_le : ∀ fs : List (String × Json), sizeFields fs ≤ (serFields fs).length
  | [] => by simp [sizeFields, serFields]
  | kv :: fs => by
      have h1 := sizeJ_le kv.2
      have h2 := sizeFields_le fs
      simp only [sizeFields, serFields, List.length_append, List.length_cons]
      omega

end

theorem parseJsonText_serRaw (j : Json) : parseJsonText (serRaw j) = some j := by
  unfold parseJsonText
  have h := (parse_adequate (serRaw j).length).1 j [] (sizeJ_le j) trivial
  rw [List.append_nil] at h
  rw [h]

/-! ### Token codec (license.py `encode_license_token` / `decode_license_token`) -/

/-- Failure kinds of the verifier, matching the `LicenseVerificationError`
messages raised in license.py (`expired` is the `LicenseExpiredError`
subclass).  `notJson` also stands for the byte strings that are not valid
UTF-8, where CPython would raise a `UnicodeDecodeError` that
`decode_license_token` does not wrap (a documented divergence from the
spec's typed-error contract, not exercised by any claim). -/
inductive VerifyError where
  | notBase64
  | notJson
  | notObject
  | unsupportedAlgorithm
  | unsupportedVersion
  | malformedArtifact
  | signatureNotBase64
  | signatureInvalid
  | payloadMalformed
  | expired
deriving DecidableEq

/-- `encode_license_token(artifact)`: base64url of the canonical JSON. -/
def encode_license_token (artifact : Json) : String :=
  String.mk (urlsafe_b64encode (canonical_json artifact))

/-- `decode_license_token(token)`: base64url-decode, parse JSON, require a
JSON object. -/
def decode_license_token (token : String) : Except VerifyError Json :=
  match urlsafe_b64decode token.data with
  | none => .error .notBase64
  | some bytes =>
    match utf8Decode bytes with
    | none => .error .notJson
    | some chars =>
      match parseJsonText chars with
      | none => .error .notJson
      | some (Json.obj fields) => .ok (.obj fields)
      | some _ => .error .notObject

mutual

/-- Object key lists are duplicate-free at every nesting level; always
true of data produced by Python dicts. -/
def nodupKeys : Json → Bool
  | .null => true
  | .bool _ => true
  | .num _ => true
  | .str _ => true
  | .arr xs => nodupKeysItems xs
  | .obj fs => decide ((fs.map Prod.fst).Nodup) && nodupKeysFields fs

def nodupKeysItems : List Json → Bool
  | [] => true
  | x :: xs => nodupKeys x && nodupKeysItems xs

def nodupKeysFields : List (String × Json) → Bool
  | [] => true
  | kv :: fs => nodupKeys kv.2 && nodupKeysFields fs

end

mutual

theorem semEq_canon : ∀ j : Json, nodupKeys j = true → SemEq j (canon j)
  | .null, _ => .null
  | .bool b, _ => .bool b
  | .num n, _ => .num n
  | .str s, _ => .str s
  | .arr xs, h => by
      rw [show canon (.arr xs) = .arr (canonItems xs) from by simp [canon]]
      exact .arr (semEqItems_canon xs (by simpa [nodupKeys] using h))
  | .obj fs, h => by
      rw [nodupKeys] at h
      simp only [Bool.and_eq_true, decide_eq_true_eq] at h
      rw [show canon (.obj fs) = .obj (List.insertionSort keyLe (canonFields fs)) from by
        simp [canon]]
      exact .obj h.1 (semEqFields_canon fs h.2)
        (List.perm_insertionSort keyLe (canonFields fs)).symm

theorem semEqItems_canon : ∀ xs : List Json, nodupKeysItems xs = true →
    SemEqItems xs (canonItems xs)
  | [], _ => .nil
  | x :: xs, h => by
      rw [nodupKeysItems] at h
      simp only [Bool.and_eq_true] at h
      rw [show canonItems (x :: xs) = canon x :: canonItems xs from by simp [canonItems]]
      exact .cons (semEq_canon x h.1) (semEqItems_canon xs h.2)

theorem semEqFields_canon : ∀ fs : List (String × Json), nodupKeysFields fs = true →
    SemEqFields fs (canonFields fs)
  | [], _ => .nil
  | kv :: fs, h => by
      rw [nodupKeysFields] at h
      simp only [Bool.and_eq_true] at h
      rw [show canonFields (kv :: fs) = (kv.1, canon kv.2) :: canonFields fs from by
        simp [canonFields]]
      exact .cons (semEq_canon kv.2 h.1) (semEqFields_canon fs h.2)

end

/-- C4: for every valid artifact map P (JSON object with Python-dict-like
duplicate-free keys), decoding the encoded token yields a JSON object that
is Python-`==` to P (`canon P`, the recursively key-sorted form, which
`SemEq`-equals P); encode is base64url of the canonical JSON, and decode
only ever yields objects, rejecting everything else with a structural
error. -/
theorem decode_encode_license_token (fields : List (String × Json))
    (h : nodupKeys (Json.obj fields) = true) :
    decode_license_token (encode_license_token (Json.obj fields)) =
      Except.ok (canon (Json.obj fields)) ∧
    SemEq (Json.obj fields) (canon (Json.obj fields)) ∧
    (∀ t j, decode_license_token t = Except.ok j →
      ∃ fs, j = Json.obj fs) := by
  refine ⟨?_, semEq_canon _ h, ?_⟩
  · unfold encode_license_token decode_license_token
    unfold canonical_json canonicalText
    rw [show (String.mk (urlsafe_b64encode (utf8Encode (serRaw (canon (Json.obj fields)))))).data =
        urlsafe_b64encode (utf8Encode (serRaw (canon (Json.obj fields)))) from rfl]
    simp only [urlsafe_b64decode_encode _ (utf8Encode_lt_256 _), utf8Decode_encode,
      parseJsonText_serRaw]
    simp [canon]
  · intro t j hdec
    unfold decode_license_token at hdec
    cases hb : urlsafe_b64decode t.data with
    | none =>
        simp only [hb] at hdec
        cases hdec
    | some bytes =>
      simp only [hb] at hdec
      cases hu : utf8Decode bytes with
      | none =>
          simp only [hu] at hdec
          cases hdec
      | some chars =>
        simp only [hu] at hdec
        cases hp : parseJsonText chars with
        | none =>
            simp only [hp] at hdec
            cases hdec
        | some j2 =>
          simp only [hp] at hdec
          cases j2 with
          | obj fs =>
            refine ⟨fs, ?_⟩
            simpa using hdec.symm
          | null => simp at hdec
          | bool b => simp at hdec
          | num n => simp at hdec
          | str s => simp at hdec
          | arr xs => simp at hdec


/-- Witness for C4 at a concrete two-key object. -/
theorem decode_encode_license_token_witness :
    nodupKeys (Json.obj [("b", .num 2), ("a", .str "x")]) = true ∧
    decode_license_token (encode_license_token (Json.obj [("b", .num 2), ("a", .str "x")])) =
      Except.ok (canon (Json.obj [("b", .num 2), ("a", .str "x")])) := by
  have h : nodupKeys (Json.obj [("b", .num 2), ("a", .str "x")]) = true := by decide
  exact ⟨h, (decode_encode_license_token _ h).1⟩

/-! ### Timestamps

Python's `_decode_datetime` (license.py) and `_parse_timestamp` (trial.py)
replace `"Z"` with `"+00:00"`, call `datetime.fromisoformat`, assume UTC
for naive values and convert aware ones to UTC.  Datetimes are modelled at
second precision as epoch seconds (every timestamp the subsystem emits has
`timespec="seconds"`); the accepted grammar is the emitted subset
`YYYY-MM-DDTHH:MM:SS[±HH:MM]` — fractional seconds and other ISO variants
are outside the model. -/

def digitVal (c : Char) : Option Nat :=
  if 48 ≤ c.toNat ∧ c.toNat ≤ 57 then some (c.toNat - 48) else none

def num2 (a b : Char) : Option Nat := do
  let x ← digitVal a
  let y ← digitVal b
  pure (x * 10 + y)

def num4 (a b c d : Char) : Option Nat := do
  let x ← num2 a b
  let y ← num2 c d
  pure (x * 100 + y)

def isLeap (y : Nat) : Bool :=
  decide (y % 4 = 0 ∧ (¬ y % 100 = 0 ∨ y % 400 = 0))

def daysInMonth (y m : Nat) : Nat :=
  if m = 2 then (if isLeap y then 29 else 28)
  else if m = 4 ∨ m = 6 ∨ m = 9 ∨ m = 11 then 30
  else 31

/-- Days since 0000-03-01 of a civil date (Howard Hinnant's formula,
specialized to years ≥ 1 so everything stays in `Nat`). -/
def daysFromCivil (y m d : Nat) : Nat :=
  let yy := if m ≤ 2 then y - 1 else y
  let era := yy / 400
  let yoe := yy % 400
  let mp := (m + 9) % 12
  let doy := (153 * mp + 2) / 5 + (d - 1)
  let doe := yoe * 365 + yoe / 4 - yoe / 100 + doy
  era * 146097 + doe

def mkEpoch (y mo d h mi s : Nat) (offsetMinutes : Int) : Option Int :=
  if 1 ≤ y ∧ y ≤ 9999 ∧ 1 ≤ mo ∧ mo ≤ 12 ∧ 1 ≤ d ∧ d ≤ daysInMonth y mo ∧
      h < 24 ∧ mi < 60 ∧ s < 60 then
    some (((daysFromCivil y mo d : Int) - 719468) * 86400 +
      (h : Int) * 3600 + (mi : Int) * 60 + (s : Int) - offsetMinutes * 60)
  else none

def parseIsoUTC (str : String) : Option Int :=
  match str.data with
  | [y1, y2, y3, y4, '-', m1, m2, '-', d1, d2, 'T', h1, h2, ':', i1, i2, ':', s1, s2] => do
      let y ← num4 y1 y2 y3 y4
      let mo ← num2 m1 m2
      let d ← num2 d1 d2
      let h ← num2 h1 h2
      let mi ← num2 i1 i2
      let s ← num2 s1 s2
      mkEpoch y mo d h mi s 0
  | [y1, y2, y3, y4, '-', m1, m2, '-', d1, d2, 'T', h1, h2, ':', i1, i2, ':', s1, s2,
      sg, o1, o2, ':', o3, o4] => do
      let y ← num4 y1 y2 y3 y4
      let mo ← num2 m1 m2
      let d ← num2 d1 d2
      let h ← num2 h1 h2
      let mi ← num2 i1 i2
      let s ← num2 s1 s2
      let oh ← num2 o1 o2
      let om ← num2 o3 o4
      if oh < 24 ∧ om < 60 then
        if sg = '+' then mkEpoch y mo d h mi s ((oh : Int) * 60 + om)
        else if sg = '-' then mkEpoch y mo d h mi s (-((oh : Int) * 60 + om))
        else none
      else none
  | _ => none

/-- `value.replace("Z", "+00:00")`: the pattern is a single character, so
Python's replace-all is exactly this per-character substitution. -/
def replaceZ : List Char → List Char
  | [] => []
  | c :: cs =>
      if c = 'Z' then '+' :: '0' :: '0' :: ':' :: '0' :: '0' :: replaceZ cs
      else c :: replaceZ cs

/-- Coarse model of `_decode_datetime(value)`: ISO strings parse (JSON
never carries Python `datetime` objects); any failure is `none`.  This
collapses two source behaviours: a string that does not parse raises
`ValueError` (which pydantic converts into a `ValidationError`), while a
non-string value raises `TypeError` (which pydantic v2 does **not**
convert, so it escapes `verify_token` uncaught).  `decode_datetime_pyd`
below keeps the two apart; this variant is used only where the
distinction is immaterial (the signature-failure arm, which never
reaches validation, and payloads that validate successfully). -/
def decode_datetime (v : Json) : Option Int :=
  match v with
  | .str s => parseIsoUTC (String.mk (replaceZ s.data))
  | _ => none


/-! ### Pydantic models (license.py `TenantInfo` / `LicensePayload`) -/

/-- `dict.get(key)` on a JSON-decoded object (duplicate keys cannot occur
in data decoded from JSON by Python). -/
def jget (fields : List (String × Json)) (k : String) : Option Json :=
  (fields.find? (fun kv => kv.1 == k)).map Prod.snd

structure TenantInfo where
  id : String
  name : Option String
  metadata : List (String × Json)

structure LicensePayload where
  tenant : TenantInfo
  features : List String
  issued_at : Int
  expires_at : Int
  device : Option String
  token_id : String
  key_id : Option String

def allowedTenantKey (k : String) : Bool :=
  k == "id" || k == "name" || k == "metadata"

def allowedPayloadKey (k : String) : Bool :=
  k == "tenant" || k == "features" || k == "issued_at" || k == "expires_at" ||
    k == "device" || k == "token_id" || k == "key_id"

/-- Pydantic `str | None = None` field from a JSON value. -/
def validateOptStr : Option Json → Option (Option String)
  | none => some none
  | some .null => some none
  | some (.str s) => some (some s)
  | some _ => none

/-- `features: list[str]` — pydantic v2 does not coerce non-strings. -/
def validateStrList : List Json → Option (List String)
  | [] => some []
  | .str s :: rest => (validateStrList rest).map (s :: ·)
  | _ => none

/-- `TenantInfo.model_validate` with `extra="forbid"`. -/
def validateTenant : Json → Option TenantInfo
  | .obj fs =>
      if fs.all (fun kv => allowedTenantKey kv.1) then
        match jget fs "id" with
        | some (.str i) =>
            match validateOptStr (jget fs "name") with
            | some nm =>
                match jget fs "metadata" with
                | none => some ⟨i, nm, []⟩
                | some (.obj md) => some ⟨i, nm, md⟩
                | some _ => none
            | none => none
        | _ => none
      else none
  | _ => none

/-- Coarse model of `LicensePayload.model_validate` with
`extra="forbid"` and the `_decode_datetime` before-validator on the two
timestamps: `some p` iff pydantic validation succeeds with payload `p`.
The `none` branch conflates a `ValidationError` with the uncaught
`TypeError` a non-string timestamp value provokes, and checks extra keys
first whereas pydantic-core validates fields first and extras after;
`model_validate_pyd` below separates the crash, after which the check
order no longer affects the outcome (whether the collected error set is
empty does not depend on collection order). -/
def model_validate : Json → Option LicensePayload
  | .obj fs =>
      if fs.all (fun kv => allowedPayloadKey kv.1) then do
        let tJ ← jget fs "tenant"
        let tenant ← validateTenant tJ
        let features ←
          match jget fs "features" with
          | none => some []
          | some (.arr xs) => validateStrList xs
          | some _ => none
        let issued ← (jget fs "issued_at").bind decode_datetime
        let expires ← (jget fs "expires_at").bind decode_datetime
        let device ← validateOptStr (jget fs "device")
        let tokenId ←
          match jget fs "token_id" with
          | some (.str s) => some s
          | _ => none
        let keyId ← validateOptStr (jget fs "key_id")
        pure ⟨tenant, features, issued, expires, device, tokenId, keyId⟩
      else none
  | _ => none

/-! ### Verifier (license.py `LicenseVerifier.verify_token`)

The Ed25519 check (`openssl pkeyutl -verify` over the canonical payload
bytes and raw signature) is an oracle parameter `sigOk`; current UTC time
is a parameter `now` in epoch seconds. -/

/-- `artifact.get("algorithm") != "ed25519"`, negated. -/
def algIsEd25519 : Option Json → Bool
  | some (.str s) => s == "ed25519"
  | _ => false

/-- `artifact.get("version") != 1`, negated.  Python `==` on JSON-decoded
values is numeric equality that identifies `True` with `1` (and `1.0`,
outside the integer model). -/
def pyEqOne : Option Json → Bool
  | some (.num n) => n == 1
  | some (.bool b) => b
  | _ => false

/-- `verify_token` body after `decode_license_token`, over the decoded
artifact's fields. -/
def verifyArtifact (sigOk : List Nat → List Nat → Bool) (now : Int)
    (artifact : List (String × Json)) : Except VerifyError LicensePayload :=
  if algIsEd25519 (jget artifact "algorithm") then
    if pyEqOne (jget artifact "version") then
      match jget artifact "payload", jget artifact "signature" with
      | some (.obj pfields), some (.str sigstr) =>
          match urlsafe_b64decode sigstr.data with
          | none => .error .signatureNotBase64
          | some signature =>
              if sigOk (canonical_json (.obj pfields)) signature then
                match model_validate (.obj pfields) with
                | none => .error .payloadMalformed
                | some payload =>
                    if payload.expires_at < now then .error .expired
                    else .ok payload
              else .error .signatureInvalid
      | _, _ => .error .malformedArtifact
    else .error .unsupportedVersion
  else .error .unsupportedAlgorithm

/-- `LicenseVerifier.verify_token(token)`. -/
def verify_token (sigOk : List Nat → List Nat → Bool) (now : Int) (token : String) :
    Except VerifyError LicensePayload := do
  let artifact ← decode_license_token token
  match artifact with
  | .obj fields => verifyArtifact sigOk now fields
  | _ => .error .notObject

/-! ### Issuance (license_generator.py `generate_license_artifact`)

Signing (`openssl pkeyutl -sign`) is an oracle parameter `signFn`. -/

def generate_license_payload (tenant : Json) (features : Option (List Json))
    (issued_at expires_at token_id : String)
    (device : Option String) (key_id : Option String)
    (certificate : Option (List (String × Json))) : List (String × Json) :=
  [("tenant", tenant), ("features", .arr (features.getD [])),
    ("issued_at", .str issued_at), ("expires_at", .str expires_at),
    ("token_id", .str token_id)] ++
  (match device with
   | some "" => []
   | some d => [("device", .str d)]
   | none => []) ++
  (match key_id with
   | some "" => []
   | some kid => [("key_id", .str kid)]
   | none => []) ++
  (match certificate with
   | some [] => []
   | some cf => [("certificate", .obj cf)]
   | none => [])

def generate_license_artifact (signFn : List Nat → List Nat)
    (payload : List (String × Json)) (algorithm : String) :
    List (String × Json) × String :=
  let signature := signFn (canonical_json (.obj payload))
  let artifact : List (String × Json) :=
    [("version", .num 1), ("algorithm", .str algorithm), ("payload", .obj payload),
      ("signature", .str (String.mk (urlsafe_b64encode signature)))]
  (artifact, encode_license_token (.obj artifact))

/-- C2 (amended): if the artifact's algorithm field is anything but the
string "ed25519", or its version field is anything Python `==` does not
identify with 1 (`1` itself or the boolean `true`; floats excluded from
the integer model), `verify_token` fails with a Malformed-class error
(unsupported algorithm/version) whose value does not depend on the
signature oracle at all — no signature verification is attempted. -/
theorem verify_token_unsupported_alg_or_version
    (artifact : List (String × Json))
    (h : algIsEd25519 (jget artifact "algorithm") = false ∨
        pyEqOne (jget artifact "version") = false) :
    ∀ (sigOk : List Nat → List Nat → Bool) (now : Int),
      verifyArtifact sigOk now artifact = .error .unsupportedAlgorithm ∨
      verifyArtifact sigOk now artifact = .error .unsupportedVersion := by
  intro sigOk now
  unfold verifyArtifact
  by_cases h2 : algIsEd25519 (jget artifact "algorithm")
  · rcases h with h | h
    · rw [h2] at h
      cases h
    · right
      rw [if_pos h2, h]
      simp
  · left
    simp only [Bool.not_eq_true] at h2
    rw [h2]
    simp

/-- Witness for C2's amended theorem at algorithm "none". -/
theorem verify_token_unsupported_alg_or_version_witness :
    algIsEd25519 (jget [("algorithm", Json.str "none")] "algorithm") = false ∧
    verifyArtifact (fun _ _ => true) 0 [("algorithm", Json.str "none")] =
      .error .unsupportedAlgorithm := by
  have h : algIsEd25519 (jget [("algorithm", Json.str "none")] "algorithm") = false := rfl
  have hcomp : verifyArtifact (fun _ _ => true) 0 [("algorithm", Json.str "none")] =
      .error .unsupportedAlgorithm := rfl
  refine ⟨h, ?_⟩
  rcases verify_token_unsupported_alg_or_version [("algorithm", Json.str "none")]
      (Or.inl h) (fun _ _ => true) 0 with hres | hres
  · exact hres
  · rw [hcomp] at hres
    simp at hres

def versionTruePayload : List (String × Json) :=
  [("tenant", .obj [("id", .str "tenant-1")]),
    ("features", .arr [.str "extract"]),
    ("issued_at", .str "2024-01-01T00:00:00Z"),
    ("expires_at", .str "2099-01-01T00:00:00Z"),
    ("token_id", .str "tok-1")]

def versionTrueArtifact : List (String × Json) :=
  [("algorithm", .str "ed25519"), ("version", .bool true),
    ("payload", .obj versionTruePayload), ("signature", .str "AAAA")]

/-- Counterexample to C2 as stated: a decoded artifact whose `version`
field is the JSON boolean `true` — a value other than exactly the number
1 — is not rejected as Malformed before signature verification: Python's
`version != 1` comparison treats `True == 1`, so verification proceeds
and, with a cryptographically valid signature, returns the payload. -/
theorem verify_token_version_true_accepted :
    jget versionTrueArtifact "version" = some (Json.bool true) ∧
    some (Json.bool true) ≠ some (Json.num 1) ∧
    ∃ p, verifyArtifact (fun _ _ => true) 0 versionTrueArtifact = .ok p := by
  refine ⟨rfl, by simp, ⟨?_, ?_⟩⟩
  · exact
      { tenant := ⟨"tenant-1", none, []⟩
        features := ["extract"]
        issued_at := 1704067200
        expires_at := 4070908800
        device := none
        token_id := "tok-1"
        key_id := none }
  · rfl

/-- C3: in `verify_token` the expiry comparison happens only after the
signature check succeeds; for a structurally valid artifact with a valid
signature, a token whose `expires_at` is strictly before `now` raises
Expired and one strictly after is returned. -/
theorem verify_token_expiry_after_signature
    (fields pfields : List (String × Json)) (sigstr : String) (sig : List Nat)
    (p : LicensePayload)
    (halg : jget fields "algorithm" = some (.str "ed25519"))
    (hver : jget fields "version" = some (.num 1))
    (hpay : jget fields "payload" = some (.obj pfields))
    (hsig : jget fields "signature" = some (.str sigstr))
    (hb64 : urlsafe_b64decode sigstr.data = some sig)
    (hval : model_validate (.obj pfields) = some p) :
    (∀ (sigOk : List Nat → List Nat → Bool) (now : Int),
        sigOk (canonical_json (.obj pfields)) sig = false →
        verifyArtifact sigOk now fields = .error .signatureInvalid) ∧
    (∀ (sigOk : List Nat → List Nat → Bool) (now : Int),
        sigOk (canonical_json (.obj pfields)) sig = true →
        p.expires_at < now →
        verifyArtifact sigOk now fields = .error .expired) ∧
    (∀ (sigOk : List Nat → List Nat → Bool) (now : Int),
        sigOk (canonical_json (.obj pfields)) sig = true →
        now ≤ p.expires_at →
        verifyArtifact sigOk now fields = .ok p) := by
  refine ⟨?_, ?_, ?_⟩
  · intro sigOk now hforge
    unfold verifyArtifact
    rw [halg, hver, hpay, hsig]
    simp [algIsEd25519, pyEqOne, hb64, hforge]
  · intro sigOk now hok hexp
    unfold verifyArtifact
    rw [halg, hver, hpay, hsig]
    simp [algIsEd25519, pyEqOne, hb64, hok, hval, hexp]
  · intro sigOk now hok hfresh
    unfold verifyArtifact
    rw [halg, hver, hpay, hsig]
    simp [algIsEd25519, pyEqOne, hb64, hok, hval]
    omega


def ed25519Artifact : List (String × Json) :=
  [("algorithm", .str "ed25519"), ("version", .num 1),
    ("payload", .obj versionTruePayload), ("signature", .str "AAAA")]

/-- Witness for C3 at a concrete artifact: signature failure wins over any
expiry state; expiry at `expires_at + 1` and success at `expires_at - 1`. -/
theorem verify_token_expiry_after_signature_witness :
    verifyArtifact (fun _ _ => false) 0 ed25519Artifact = .error .signatureInvalid ∧
    verifyArtifact (fun _ _ => true) 4070908801 ed25519Artifact = .error .expired ∧
    verifyArtifact (fun _ _ => true) 4070908799 ed25519Artifact =
      .ok { tenant := ⟨"tenant-1", none, []⟩, features := ["extract"],
            issued_at := 1704067200, expires_at := 4070908800, device := none,
            token_id := "tok-1", key_id := none } := by
  have hthm := verify_token_expiry_after_signature ed25519Artifact versionTruePayload
    "AAAA" [0, 0, 0]
    { tenant := ⟨"tenant-1", none, []⟩, features := ["extract"],
      issued_at := 1704067200, expires_at := 4070908800, device := none,
      token_id := "tok-1", key_id := none }
    rfl rfl rfl rfl rfl rfl
  exact ⟨hthm.1 _ 0 rfl, hthm.2.1 _ _ rfl (by decide), hthm.2.2 _ _ rfl (by decide)⟩


theorem model_validate_extra_key (pfields : List (String × Json)) (k : String)
    (hk : k ∈ pfields.map Prod.fst) (hnot : allowedPayloadKey k = false) :
    model_validate (.obj pfields) = none := by
  have hcond : ¬ (pfields.all (fun kv => allowedPayloadKey kv.1) = true) := by
    rw [List.all_eq_true]
    intro hall
    obtain ⟨kv, hkv, hfst⟩ := List.mem_map.mp hk
    have hx := hall kv hkv
    simp only at hx
    rw [hfst] at hx
    rw [hx] at hnot
    cases hnot
  simp only [model_validate]
  rw [if_neg hcond]

/-! ### Crash-aware payload validation (pydantic v2 semantics)

pydantic v2 converts only `ValueError`/`AssertionError` raised inside a
validator into a `ValidationError`; the `TypeError` that
`_decode_datetime` raises for a value that is neither a string nor a
`datetime` (JSON-decoded data never is one) propagates out of
`LicensePayload.model_validate` and escapes `verify_token` uncaught.
pydantic-core also validates fields in definition order and checks
`extra="forbid"` leftovers afterwards, so such a crash preempts the
extra-key error. -/

/-- `_decode_datetime` with its exception kind kept apart: ISO strings
parse or raise `ValueError` (converted by pydantic); any other value
raises `TypeError` (not converted). -/
inductive DtResult where
  | ok (t : Int)
  | valueError
  | typeError
deriving DecidableEq

def decode_datetime_pyd : Json → DtResult
  | .str s =>
      match parseIsoUTC (String.mk (replaceZ s.data)) with
      | some t => .ok t
      | none => .valueError
  | _ => .typeError

def isDtTypeError : Option Json → Bool
  | some v =>
      match decode_datetime_pyd v with
      | .typeError => true
      | _ => false
  | none => false

/-- Does validating this field map raise an uncaught `TypeError`?  The
before-validator runs on `issued_at` and then on `expires_at` whenever
the key is present (a missing key only records a `missing` error); the
first `TypeError` aborts validation before the extra-key check runs. -/
def timestampTypeError (fs : List (String × Json)) : Bool :=
  isDtTypeError (jget fs "issued_at") || isDtTypeError (jget fs "expires_at")

/-- Outcome of `LicensePayload.model_validate` under pydantic v2:
success, a `ValidationError`, or an exception pydantic does not convert. -/
inductive PydResult where
  | ok (p : LicensePayload)
  | invalid
  | crash

/-- `LicensePayload.model_validate` with the uncaught-`TypeError` path
explicit.  A non-dict input is a `model_type` `ValidationError` (field
validators never run).  Otherwise validation crashes exactly when a
timestamp value raises `TypeError`; in the no-crash region errors are
merely collected — `ValueError`s from timestamp parsing, missing fields,
wrong field types, and `extra="forbid"` leftovers — and `ValidationError`
is raised iff that set is non-empty, which does not depend on the order
the checks run in, so the outcome there coincides with `model_validate`. -/
def model_validate_pyd : Json → PydResult
  | .obj fs =>
      if timestampTypeError fs then .crash
      else
        match model_validate (.obj fs) with
        | some p => .ok p
        | none => .invalid
  | _ => .invalid

/-- A string value never raises `TypeError` in `_decode_datetime`. -/
theorem isDtTypeError_str (s : String) : isDtTypeError (some (.str s)) = false := by
  simp only [isDtTypeError, decode_datetime_pyd]
  cases parseIsoUTC (String.mk (replaceZ s.data)) <;> rfl

theorem bind_decode_datetime_none (o : Option Json) (h : isDtTypeError o = true) :
    o.bind decode_datetime = none := by
  cases o with
  | none => simp [isDtTypeError] at h
  | some v =>
      cases v with
      | str s => rw [isDtTypeError_str] at h; cases h
      | null => rfl
      | bool b => rfl
      | num n => rfl
      | arr xs => rfl
      | obj fs => rfl

theorem opt_bind_none {α β : Type} (x : Option α) (f : α → Option β)
    (h : ∀ a, f a = none) : x.bind f = none := by
  cases x <;> simp [h]

/-- In the crash region the coarse `model_validate` also fails (a
non-string timestamp value never parses), so collapsing the crash into
`none` only coarsens, never misclassifies, a success. -/
theorem model_validate_crash_none (pfields : List (String × Json))
    (hcr : timestampTypeError pfields = true) :
    model_validate (.obj pfields) = none := by
  rw [timestampTypeError, Bool.or_eq_true] at hcr
  simp only [model_validate]
  split
  · apply opt_bind_none; intro tJ
    apply opt_bind_none; intro tenant
    split
    all_goals
      apply opt_bind_none
      intro features
      rcases hcr with hcr | hcr
      · rw [bind_decode_datetime_none _ hcr]; rfl
      · apply opt_bind_none
        intro issued
        rw [bind_decode_datetime_none _ hcr]; rfl
  · rfl

/-- The coarse `model_validate` refines `model_validate_pyd`: successes
coincide, and the crash region lies inside the coarse failure region. -/
theorem model_validate_pyd_refines (j : Json) :
    (∀ p, model_validate_pyd j = .ok p ↔ model_validate j = some p) ∧
    (model_validate_pyd j = .crash → model_validate j = none) := by
  constructor
  · intro p
    cases j with
    | obj fs =>
        simp only [model_validate_pyd]
        by_cases hcr : timestampTypeError fs = true
        · rw [if_pos hcr, model_validate_crash_none fs hcr]
          constructor <;> intro h <;> cases h
        · rw [if_neg hcr]
          cases hmv : model_validate (.obj fs) with
          | none => constructor <;> intro h <;> cases h
          | some q =>
              constructor
              · intro h; cases h; rfl
              · intro h; cases h; rfl
    | null => constructor <;> intro h <;> cases h
    | bool b => constructor <;> intro h <;> cases h
    | num n => constructor <;> intro h <;> cases h
    | str str => constructor <;> intro h <;> cases h
    | arr xs => constructor <;> intro h <;> cases h
  · intro h
    cases j with
    | obj fs =>
        simp only [model_validate_pyd] at h
        by_cases hcr : timestampTypeError fs = true
        · exact model_validate_crash_none fs hcr
        · rw [if_neg hcr] at h
          cases hmv : model_validate (.obj fs) with
          | none => rfl
          | some q => rw [hmv] at h; cases h
    | null => cases h
    | bool b => cases h
    | num n => cases h
    | str str => cases h
    | arr xs => cases h

/-- `verify_token` body over the decoded artifact with the uncaught
exception channel explicit: `none` models an exception that is not a
`LicenseVerificationError` escaping `verify_token`. -/
def verifyArtifactPyd (sigOk : List Nat → List Nat → Bool) (now : Int)
    (artifact : List (String × Json)) : Option (Except VerifyError LicensePayload) :=
  if algIsEd25519 (jget artifact "algorithm") then
    if pyEqOne (jget artifact "version") then
      match jget artifact "payload", jget artifact "signature" with
      | some (.obj pfields), some (.str sigstr) =>
          match urlsafe_b64decode sigstr.data with
          | none => some (.error .signatureNotBase64)
          | some signature =>
              if sigOk (canonical_json (.obj pfields)) signature then
                match model_validate_pyd (.obj pfields) with
                | .crash => none
                | .invalid => some (.error .payloadMalformed)
                | .ok payload =>
                    if payload.expires_at < now then some (.error .expired)
                    else some (.ok payload)
              else some (.error .signatureInvalid)
      | _, _ => some (.error .malformedArtifact)
    else some (.error .unsupportedVersion)
  else some (.error .unsupportedAlgorithm)

/-- C8 (amended): a signed artifact whose payload map carries any key
outside the `LicensePayload` schema never verifies, even when the
signature over the canonical payload bytes is valid: when the payload's
timestamp values are strings — as in every payload
`generate_license_payload` builds, including the certificate-embedding
case — it is rejected with the "License payload is malformed"
`LicenseVerificationError` because the pydantic model forbids extra
fields; when a timestamp value is not a string, `_decode_datetime`'s
`TypeError` escapes `verify_token` uncaught before the extra key is ever
examined, so no `LicenseVerificationError` is raised, but the token is
still never accepted. -/
theorem verify_token_rejects_extra_payload_key
    (fields pfields : List (String × Json)) (sigstr : String) (sig : List Nat) (k : String)
    (halg : jget fields "algorithm" = some (.str "ed25519"))
    (hver : jget fields "version" = some (.num 1))
    (hpay : jget fields "payload" = some (.obj pfields))
    (hsig : jget fields "signature" = some (.str sigstr))
    (hb64 : urlsafe_b64decode sigstr.data = some sig)
    (hk : k ∈ pfields.map Prod.fst) (hnot : allowedPayloadKey k = false) :
    (∀ (sigOk : List Nat → List Nat → Bool) (now : Int),
        sigOk (canonical_json (.obj pfields)) sig = true →
        timestampTypeError pfields = false →
        verifyArtifactPyd sigOk now fields = some (.error .payloadMalformed)) ∧
    (∀ (sigOk : List Nat → List Nat → Bool) (now : Int) (p : LicensePayload),
        verifyArtifactPyd sigOk now fields ≠ some (.ok p)) ∧
    (∀ tenant features issued expires tokenId device keyId cf, cf ≠ [] →
        "certificate" ∈ (generate_license_payload tenant features issued expires tokenId
          device keyId (some cf)).map Prod.fst ∧
        allowedPayloadKey "certificate" = false ∧
        timestampTypeError (generate_license_payload tenant features issued expires tokenId
          device keyId (some cf)) = false) := by
  refine ⟨?_, ?_, ?_⟩
  · intro sigOk now hok hts
    unfold verifyArtifactPyd
    rw [halg, hver, hpay, hsig]
    simp [algIsEd25519, pyEqOne, hb64, hok, model_validate_pyd, hts,
      model_validate_extra_key pfields k hk hnot]
  · intro sigOk now p h
    unfold verifyArtifactPyd at h
    rw [halg, hver, hpay, hsig] at h
    simp only [algIsEd25519, pyEqOne, beq_self_eq_true, if_true, hb64, model_validate_pyd,
      model_validate_extra_key pfields k hk hnot] at h
    by_cases hs : sigOk (canonical_json (.obj pfields)) sig = true
    · rw [if_pos hs] at h
      cases htt : timestampTypeError pfields <;> rw [htt] at h <;> simp at h
    · rw [if_neg hs] at h
      cases h
  · intro tenant features issued expires tokenId device keyId cf hcf
    refine ⟨?_, by decide, ?_⟩
    · unfold generate_license_payload
      cases cf with
      | nil => exact absurd rfl hcf
      | cons c cs => simp
    · rw [timestampTypeError,
        show jget (generate_license_payload tenant features issued expires tokenId
          device keyId (some cf)) "issued_at" = some (.str issued) from rfl,
        show jget (generate_license_payload tenant features issued expires tokenId
          device keyId (some cf)) "expires_at" = some (.str expires) from rfl,
        isDtTypeError_str, isDtTypeError_str]
      rfl

def certPayload : List (String × Json) :=
  versionTruePayload ++ [("certificate", .obj [("note", .str "hello")])]

def certArtifact : List (String × Json) :=
  [("algorithm", .str "ed25519"), ("version", .num 1),
    ("payload", .obj certPayload), ("signature", .str "AAAA")]

/-- Witness for C8 at a concrete certificate-bearing payload (string
timestamps) with an always-accepting signature oracle. -/
theorem verify_token_rejects_extra_payload_key_witness :
    verifyArtifactPyd (fun _ _ => true) 0 certArtifact =
      some (.error .payloadMalformed) ∧
    "certificate" ∈ (generate_license_payload (Json.obj [("id", Json.str "t")]) none
      "2024-01-01T00:00:00Z" "2024-02-01T00:00:00Z" "tok" none none
      (some [("note", Json.str "hello")])).map Prod.fst := by
  have hthm := verify_token_rejects_extra_payload_key certArtifact certPayload
    "AAAA" [0, 0, 0] "certificate" rfl rfl rfl rfl rfl (by decide) (by decide)
  exact ⟨hthm.1 _ 0 rfl rfl,
    (hthm.2.2 (Json.obj [("id", Json.str "t")]) none "2024-01-01T00:00:00Z"
      "2024-02-01T00:00:00Z" "tok" none none [("note", Json.str "hello")] (by simp)).1⟩

def crashPayload : List (String × Json) :=
  [("tenant", .obj [("id", .str "t")]), ("features", .arr [.str "extract"]),
    ("issued_at", .num 5), ("expires_at", .str "2099-01-01T00:00:00Z"),
    ("token_id", .str "tok"), ("certificate", .obj [("note", .str "hello")])]

def crashArtifact : List (String × Json) :=
  [("algorithm", .str "ed25519"), ("version", .num 1),
    ("payload", .obj crashPayload), ("signature", .str "AAAA")]

/-- C8 counterexample to the original universal claim: on a validly
signed artifact whose payload carries the extra `certificate` key *and*
a non-string `issued_at`, `verify_token` does not raise the malformed
`LicenseVerificationError` — `_decode_datetime`'s `TypeError` escapes
uncaught (`none`) before the extra key is examined. -/
theorem verify_token_extra_key_uncaught_type_error :
    "certificate" ∈ crashPayload.map Prod.fst ∧
    allowedPayloadKey "certificate" = false ∧
    verifyArtifactPyd (fun _ _ => true) 0 crashArtifact = none ∧
    ∀ e : VerifyError,
      verifyArtifactPyd (fun _ _ => true) 0 crashArtifact ≠ some (.error e) := by
  refine ⟨by decide, by decide, rfl, ?_⟩
  intro e h
  rw [show verifyArtifactPyd (fun _ _ => true) 0 crashArtifact = none from rfl] at h
  cases h

/-! ### Request-level validator (api/license_validator.py) and error
surfacing (api/security.py, api/middleware.py)

RSA-PKCS#1-v1.5/SHA-256 (`_verify_rs256`) and PEM/DER public-key parsing
(`_load_rsa_public_numbers`) are modelled as oracle parameters `rsaOk`
and `loadRsa`: the claims under study concern check ordering and error
surfacing, which hold for every value of those oracles.  HTTP errors are
(status, detail) pairs; a result of `(500, "Unhandled exception.")`
models an exception escaping the handler uncaught. -/

/-- Python `str.upper()` restricted to ASCII (all algorithm names are
ASCII; Lean's `Char.toUpper` uppercases exactly ASCII letters). -/
def pyUpper (s : String) : String := String.mk (s.data.map Char.toUpper)

/-- Python `str.strip()` on ASCII whitespace. -/
def isPyWs (c : Char) : Bool :=
  c = ' ' || c = '\t' || c = '\n' || c = '\x0d' || c = '\x0b' || c = '\x0c'

def pyStrip (s : String) : String :=
  String.mk (((s.data.dropWhile isPyWs).reverse.dropWhile isPyWs).reverse)

/-- The license-relevant slice of the config.py `Settings` snapshot. -/
structure Settings where
  license_public_key : Option String
  license_algorithm : String
  license_revoked_jtis : List String
  license_revoked_subjects : List String

/-- `LicenseClaims` (frozenset modelled as its element list). -/
structure LicenseClaims where
  raw : List (String × Json)
  features : List String

/-- `_b64url_decode`: re-pad, then `urlsafe_b64decode`. -/
def b64url_decode (s : String) : Option (List Nat) :=
  urlsafe_b64decode (s.data ++ List.replicate ((4 - s.data.length % 4) % 4) '=')

/-- Python `str.split(".")`. -/
def splitOnDot : List Char → List (List Char)
  | [] => [[]]
  | c :: cs =>
      let r := splitOnDot cs
      if c = '.' then [] :: r
      else
        match r with
        | h :: t => (c :: h) :: t
        | [] => [[c]]

/-- `_decode_json(segment)` success payload: base64url-decode, UTF-8
decode, JSON parse, require an object.  Every failure (including invalid
UTF-8, whose `UnicodeDecodeError` is a `ValueError` and is caught) is a
401 in the caller. -/
def decode_json_segment (s : String) : Option (List (String × Json)) :=
  match b64url_decode s with
  | none => none
  | some bytes =>
    match utf8Decode bytes with
    | none => none
    | some chars =>
      match parseJsonText chars with
      | some (.obj fs) => some fs
      | _ => none

/-- `(header.get("alg") or "").upper()`: falsy values collapse to `""`;
a truthy non-string raises `AttributeError` (`none` here). -/
def algString : Option Json → Option String
  | none => some ""
  | some (.str a) => some (pyUpper a)
  | some .null => some ""
  | some (.bool false) => some ""
  | some (.num 0) => some ""
  | some (.arr []) => some ""
  | some (.obj []) => some ""
  | some _ => none

/-- `(getattr(cfg, "license_algorithm", "RS256") or "RS256").upper()`. -/
def expectedAlg (cfg : Settings) : String :=
  pyUpper (if cfg.license_algorithm = "" then "RS256" else cfg.license_algorithm)

/-- `payload.get("exp")` filtered by `isinstance(exp, (int, float))`;
Python's `bool` is an `int` subtype, so `true`/`false` count as 1/0. -/
def expVal : Option Json → Option Int
  | some (.num e) => some e
  | some (.bool b) => some (if b then 1 else 0)
  | _ => none

/-- `_normalize_features(value)`. -/
def normalize_features (value : Option Json) : Except (Nat × String) (List String) :=
  let candidates : Option (List Json) :=
    match value with
    | some (.str s) => some [.str s]
    | some (.arr xs) => some xs
    | _ => none
  match candidates with
  | none => .error (403, "License payload is missing feature permissions.")
  | some xs =>
      let normalized := xs.filterMap fun j =>
        match j with
        | .str s => if pyStrip s = "" then none else some (pyStrip s)
        | _ => none
      if normalized = [] then .error (403, "License payload is missing feature permissions.")
      else .ok normalized

/-- `validate_license_token(token, config=cfg)`. -/
def validate_license_token
    (loadRsa : String → Option (Nat × Nat))
    (rsaOk : String → List Nat → Nat × Nat → Bool)
    (now : Int) (cfg : Settings) (token : Option String) :
    Except (Nat × String) LicenseClaims :=
  match token with
  | none => .error (401, "Missing license token.")
  | some t =>
    if t = "" then .error (401, "Missing license token.")
    else
      match cfg.license_public_key with
      | none => .error (503, "License verification is not configured.")
      | some key =>
        if key = "" then .error (503, "License verification is not configured.")
        else
          match splitOnDot t.data with
          | [hseg, pseg, sseg] =>
            match decode_json_segment (String.mk hseg) with
            | none => .error (401, "Invalid license token.")
            | some header =>
              match decode_json_segment (String.mk pseg) with
              | none => .error (401, "Invalid license token.")
              | some payload =>
                match algString (jget header "alg") with
                | none => .error (500, "Unhandled exception.")
                | some alg =>
                  if alg ≠ expectedAlg cfg then .error (401, "Invalid license token.")
                  else
                    match loadRsa key with
                    | none => .error (503, "Invalid license key.")
                    | some numbers =>
                      match b64url_decode (String.mk sseg) with
                      | none => .error (500, "Unhandled exception.")
                      | some signature =>
                        if ¬ rsaOk (String.mk (hseg ++ '.' :: pseg)) signature numbers then
                          .error (401, "Invalid license token.")
                        else
                          match expVal (jget payload "exp") with
                          | none => .error (403, "License token missing expiry.")
                          | some exp =>
                            if exp < now then .error (403, "License token expired.")
                            else
                              match jget payload "jti" with
                              | some (.str jti) =>
                                if pyStrip jti = "" then
                                  .error (403, "License token missing identifier.")
                                else if jti ∈ cfg.license_revoked_jtis then
                                  .error (403, "License token revoked.")
                                else
                                  if (match jget payload "sub" with
                                      | some (.str sub) =>
                                          cfg.license_revoked_subjects.contains sub
                                      | _ => false) then
                                    .error (403, "License token revoked.")
                                  else
                                    match normalize_features (jget payload "features") with
                                    | .error e => .error e
                                    | .ok fs => .ok ⟨payload, fs⟩
                              | _ => .error (403, "License token missing identifier.")
          | _ => .error (401, "Invalid license token.")

/-- `require_license_token(request)` from api/security.py: surfaces the
`LicenseVerifier` outcome.  `verifierOk = false` models
`get_license_verifier()` raising (no key configured). -/
def require_license_token (verifierOk : Bool)
    (sigOk : List Nat → List Nat → Bool) (now : Int) (token : Option String) :
    Except (Nat × String) LicensePayload :=
  match token with
  | none => .error (401, "License token is required.")
  | some t =>
    if t = "" then .error (401, "License token is required.")
    else if ¬ verifierOk then .error (503, "License verification unavailable.")
    else
      match verify_token sigOk now (pyStrip t) with
      | .ok p => .ok p
      | .error .expired => .error (401, "License token has expired.")
      | .error _ => .error (401, "License token is invalid.")

/-- The license-verification arm of `APIKeyAndLoggingMiddleware.dispatch`
(api/middleware.py): `some (status, detail)` is an early error response,
`none` means the request proceeds with claims attached. -/
def middleware_license_response
    (sigOk : List Nat → List Nat → Bool) (now : Int) (token : String) :
    Option (Nat × String) :=
  match verify_token sigOk now (pyStrip token) with
  | .ok _ => none
  | .error .expired => some (403, "License token expired.")
  | .error _ => some (401, "Invalid license token.")

/-- Modelled from the spec: `build_license_claims(payload, config)` is
imported by api/middleware.py from api/license_validator.py but absent
from the source tree (only its caller exists).  Spec §4.6: build_claims
normalizes `payload.features` into a non-empty set and fails with a
Forbidden error when the feature list is empty; modelled by running
`_normalize_features` on the verified payload's feature list. -/
def build_license_claims (payload : LicensePayload) :
    Except (Nat × String) LicenseClaims :=
  match normalize_features (some (.arr (payload.features.map .str))) with
  | .error e => .error e
  | .ok fs => .ok ⟨[], fs⟩

end LicenseSpec

namespace LicenseSpec

def expiredPayload : List (String × Json) :=
  [("tenant", .obj [("id", .str "t")]),
    ("features", .arr [.str "extract"]),
    ("issued_at", .str "2024-01-01T00:00:00Z"),
    ("expires_at", .str "2024-02-01T00:00:00Z"),
    ("token_id", .str "tok-1")]

def expiredArtifact : List (String × Json) :=
  [("algorithm", .str "ed25519"), ("version", .num 1),
    ("payload", .obj expiredPayload), ("signature", .str "AAAA")]

/-- C5 evidence: `require_license_token` (api/security.py) surfaces an
authentic-but-expired token as HTTP 401 (with a distinct message), not as
the 403-equivalent the spec prescribes; the middleware and the JWT
validator do use 403 for expiry, and malformed and signature-invalid
tokens map to one identical 401 error in both surfaces. -/
theorem license_expiry_error_surfacing :
    (∀ (sigOk : List Nat → List Nat → Bool) (now : Int) (t : String), t ≠ "" →
        verify_token sigOk now (pyStrip t) = .error VerifyError.expired →
        require_license_token true sigOk now (some t) =
          .error (401, "License token has expired.")) ∧
    ((401 : Nat) ≠ 403) ∧
    (∀ (sigOk : List Nat → List Nat → Bool) (now : Int) (t : String),
        verify_token sigOk now (pyStrip t) = .error VerifyError.expired →
        middleware_license_response sigOk now t = some (403, "License token expired.")) ∧
    (∀ (sigOk : List Nat → List Nat → Bool) (now : Int) (t : String) (e : VerifyError),
        t ≠ "" → e ≠ VerifyError.expired →
        verify_token sigOk now (pyStrip t) = .error e →
        require_license_token true sigOk now (some t) =
          .error (401, "License token is invalid.") ∧
        middleware_license_response sigOk now t = some (401, "Invalid license token.")) := by
  refine ⟨?_, by decide, ?_, ?_⟩
  · intro sigOk now t ht hv
    simp [require_license_token, ht, hv]
  · intro sigOk now t hv
    simp [middleware_license_response, hv]
  · intro sigOk now t e ht hne hv
    cases e <;>
      first
      | exact absurd rfl hne
      | exact ⟨by simp [require_license_token, ht, hv],
          by simp [middleware_license_response, hv]⟩

set_option maxRecDepth 4000 in
/-- Witness for C5 at a real encoded, expired, signature-accepted token. -/
theorem license_expiry_error_surfacing_witness :
    require_license_token true (fun _ _ => true) 1800000000
      (some (encode_license_token (.obj expiredArtifact))) =
      .error (401, "License token has expired.") ∧
    middleware_license_response (fun _ _ => true) 1800000000
      (encode_license_token (.obj expiredArtifact)) =
      some (403, "License token expired.") ∧
    require_license_token true (fun _ _ => true) 1800000000 (some "garbage") =
      .error (401, "License token is invalid.") := by
  have hexp : verify_token (fun _ _ => true) 1800000000
      (pyStrip (encode_license_token (.obj expiredArtifact))) = .error VerifyError.expired := rfl
  have hbad : verify_token (fun _ _ => true) 1800000000 (pyStrip "garbage") =
      .error VerifyError.notBase64 := rfl
  refine ⟨?_, ?_, ?_⟩
  · exact license_expiry_error_surfacing.1 _ _ _ (by decide) hexp
  · exact license_expiry_error_surfacing.2.2.1 _ _ _ hexp
  · exact (license_expiry_error_surfacing.2.2.2 _ _ _ VerifyError.notBase64
      (by simp) (by simp) hbad).1

end LicenseSpec

namespace LicenseSpec

/-- C6: in `validate_license_token`, revocation (revoked jti or revoked
subject) is checked strictly after the signature and expiry checks: an
expired token reports the expiry error whatever the revocation lists
contain, and a Revoked outcome entails that the signature verified and
the token was not expired. -/
theorem validate_revocation_after_expiry
    (loadRsa : String → Option (Nat × Nat))
    (rsaOk : String → List Nat → Nat × Nat → Bool)
    (cfg : Settings) (t key : String)
    (hseg pseg sseg : List Char)
    (header payload : List (String × Json))
    (numbers : Nat × Nat) (signature : List Nat)
    (ht : t ≠ "")
    (hkey : cfg.license_public_key = some key) (hkeyne : key ≠ "")
    (hsplit : splitOnDot t.data = [hseg, pseg, sseg])
    (hheader : decode_json_segment (String.mk hseg) = some header)
    (hpayload : decode_json_segment (String.mk pseg) = some payload)
    (halg : algString (jget header "alg") = some (expectedAlg cfg))
    (hload : loadRsa key = some numbers)
    (hsigdec : b64url_decode (String.mk sseg) = some signature) :
    (∀ (now exp : Int),
        rsaOk (String.mk (hseg ++ '.' :: pseg)) signature numbers = true →
        expVal (jget payload "exp") = some exp → exp < now →
        validate_license_token loadRsa rsaOk now cfg (some t) =
          .error (403, "License token expired.")) ∧
    (∀ (now : Int),
        validate_license_token loadRsa rsaOk now cfg (some t) =
          .error (403, "License token revoked.") →
        rsaOk (String.mk (hseg ++ '.' :: pseg)) signature numbers = true ∧
        ∃ e, expVal (jget payload "exp") = some e ∧ ¬ e < now) := by
  constructor
  · intro now exp hrsa hexpv hlt
    simp [validate_license_token, ht, hkey, hkeyne, hsplit, hheader, hpayload,
      halg, hload, hsigdec, hrsa, hexpv, hlt]
  · intro now h
    by_cases hrsa : rsaOk (String.mk (hseg ++ '.' :: pseg)) signature numbers = true
    · cases hexpv : expVal (jget payload "exp") with
      | none =>
          simp +decide [validate_license_token, ht, hkey, hkeyne, hsplit, hheader,
            hpayload, halg, hload, hsigdec, hrsa, hexpv] at h
      | some e =>
          by_cases hlt : e < now
          · simp +decide [validate_license_token, ht, hkey, hkeyne, hsplit, hheader,
              hpayload, halg, hload, hsigdec, hrsa, hexpv, hlt] at h
          · exact ⟨hrsa, e, rfl, hlt⟩
    · rw [Bool.not_eq_true] at hrsa
      simp +decide [validate_license_token, ht, hkey, hkeyne, hsplit, hheader,
        hpayload, halg, hload, hsigdec, hrsa] at h

def demoHeader : Json := .obj [("alg", .str "RS256")]

def demoPayloadJ : Json :=
  .obj [("exp", .num 1000), ("features", .arr [.str "extract"]),
    ("jti", .str "id-1"), ("sub", .str "acme")]

def demoHseg : List Char := (urlsafe_b64encode (canonical_json demoHeader))

def demoPseg : List Char := (urlsafe_b64encode (canonical_json demoPayloadJ))

def demoSseg : List Char := ['A', 'A', 'A', 'A']

def demoToken : String := String.mk (demoHseg ++ '.' :: demoPseg ++ '.' :: demoSseg)

def demoCfg : Settings := ⟨some "KEY", "RS256", ["id-1"], []⟩

set_option maxRecDepth 4000 in
/-- Witness for C6: a concrete JWT-style token that is both expired
(`exp = 1000 < now = 2000`) and revoked (`jti = "id-1"` is in the revoked
list) reports the expiry error. -/
theorem validate_revocation_after_expiry_witness :
    "id-1" ∈ demoCfg.license_revoked_jtis ∧
    validate_license_token (fun _ => some (7, 65537)) (fun _ _ _ => true) 2000 demoCfg
      (some demoToken) = .error (403, "License token expired.") := by
  refine ⟨by decide, ?_⟩
  exact (validate_revocation_after_expiry (fun _ => some (7, 65537)) (fun _ _ _ => true)
    demoCfg demoToken "KEY" demoHseg demoPseg demoSseg
    [("alg", .str "RS256")]
    [("exp", .num 1000), ("features", .arr [.str "extract"]),
      ("jti", .str "id-1"), ("sub", .str "acme")]
    (7, 65537) [0, 0, 0]
    (by decide) rfl (by decide) rfl rfl rfl rfl rfl rfl).1 2000 1000 rfl rfl (by decide)

end LicenseSpec

namespace LicenseSpec

/-- Helper: `_normalize_features` never succeeds with an empty list. -/
theorem normalize_features_ok_nonempty (v : Option Json) (fs : List String)
    (h : normalize_features v = .ok fs) : fs ≠ [] := by
  unfold normalize_features at h
  split at h <;> dsimp only at h
  · split at h
    · exact Except.noConfusion h
    · cases h; assumption
  · split at h
    · exact Except.noConfusion h
    · cases h; assumption
  · exact Except.noConfusion h

def demoCfg2 : Settings := ⟨some "KEY", "RS256", [], []⟩

def emptyFeaturePayload : LicensePayload := ⟨⟨"t", none, []⟩, [], 0, 1, none, "tok", none⟩

/-- C7: a features value that normalizes to the empty set fails with the
Forbidden "missing feature permissions" error and is never silently
granted: `_normalize_features` either succeeds with a non-empty list or
fails with exactly that 403 error; any claims produced by the validator
or by claims-building carry a non-empty feature list; and an
empty-features payload fails claims-building with the 403 error. -/
theorem features_nonempty_at_verification :
    (∀ (v : Option Json) (fs : List String), normalize_features v = .ok fs → fs ≠ []) ∧
    (∀ (v : Option Json),
        (∃ fs, normalize_features v = .ok fs) ∨
        normalize_features v =
          .error (403, "License payload is missing feature permissions.")) ∧
    (∀ (loadRsa : String → Option (Nat × Nat))
        (rsaOk : String → List Nat → Nat × Nat → Bool)
        (now : Int) (cfg : Settings) (token : Option String) (claims : LicenseClaims),
        validate_license_token loadRsa rsaOk now cfg token = .ok claims →
        claims.features ≠ []) ∧
    (∀ (p : LicensePayload) (claims : LicenseClaims),
        build_license_claims p = .ok claims → claims.features ≠ []) ∧
    (∀ (p : LicensePayload), p.features = [] →
        build_license_claims p =
          .error (403, "License payload is missing feature permissions.")) := by
  refine ⟨normalize_features_ok_nonempty, ?_, ?_, ?_, ?_⟩
  · intro v
    unfold normalize_features
    split <;> dsimp only
    · split
      · exact Or.inr rfl
      · exact Or.inl ⟨_, rfl⟩
    · split
      · exact Or.inr rfl
      · exact Or.inl ⟨_, rfl⟩
    · exact Or.inr rfl
  · intro loadRsa rsaOk now cfg token claims h
    unfold validate_license_token at h
    repeat' split at h
    all_goals try exact Except.noConfusion h
    all_goals cases h
    all_goals exact normalize_features_ok_nonempty _ _ (by assumption)
  · intro p claims h
    unfold build_license_claims at h
    split at h
    · exact Except.noConfusion h
    · cases h
      exact normalize_features_ok_nonempty _ _ (by assumption)
  · intro p hp
    simp only [build_license_claims, hp]
    rfl

set_option maxRecDepth 4000 in
/-- Witness for C7: a concrete valid token yields non-empty features, and
a payload with an empty feature list fails claims-building with the 403
error. -/
theorem features_nonempty_at_verification_witness :
    validate_license_token (fun _ => some (7, 65537)) (fun _ _ _ => true) 500 demoCfg2
      (some demoToken) =
      .ok ⟨[("exp", .num 1000), ("features", .arr [.str "extract"]),
        ("jti", .str "id-1"), ("sub", .str "acme")], ["extract"]⟩ ∧
    (["extract"] : List String) ≠ [] ∧
    build_license_claims emptyFeaturePayload =
      .error (403, "License payload is missing feature permissions.") := by
  have hok : validate_license_token (fun _ => some (7, 65537)) (fun _ _ _ => true) 500
      demoCfg2 (some demoToken) =
      .ok ⟨[("exp", .num 1000), ("features", .arr [.str "extract"]),
        ("jti", .str "id-1"), ("sub", .str "acme")], ["extract"]⟩ := rfl
  exact ⟨hok, features_nonempty_at_verification.2.2.1 _ _ _ _ _ _ hok,
    features_nonempty_at_verification.2.2.2.2 emptyFeaturePayload rfl⟩

end LicenseSpec

namespace LicenseSpec

/-! ### CLI issuance (scripts/generate_license.py)

`main` is modelled from the point where argument parsing and timestamp
parsing have succeeded: `issued_at`/`expires_at` are the parsed UTC
datetimes (epoch seconds), filesystem facts (`privateKeyExists`,
`passwordFile`) are explicit, OpenSSL signing is the oracle `signFn`
(`none` = non-zero exit), and `token_id` stands for the fresh
`uuid.uuid4()` string.  A `SystemExit`/`ArgumentTypeError` with message
`m` is `.error m`. -/

/-- `_clean_features`: strip, drop empties, de-duplicate keeping first
occurrence order. -/
def cleanFeaturesGo : List String → List String → List String
  | acc, [] => acc.reverse
  | acc, f :: rest =>
      let name := pyStrip f
      if name = "" then cleanFeaturesGo acc rest
      else if acc.contains name then cleanFeaturesGo acc rest
      else cleanFeaturesGo (name :: acc) rest

def clean_features (fs : List String) : List String := cleanFeaturesGo [] fs

/-- `entry.split("=", 1)` when `"=" in entry`. -/
def splitOnceEq : List Char → Option (List Char × List Char)
  | [] => none
  | c :: cs =>
      if c = '=' then some ([], cs)
      else
        match splitOnceEq cs with
        | some (k, v) => some (c :: k, v)
        | none => none

/-- Python dict assignment `m[k] = v` on an insertion-ordered dict. -/
def dictInsert (m : List (String × String)) (k v : String) : List (String × String) :=
  if m.any (fun p => p.1 == k) then m.map (fun p => if p.1 == k then (k, v) else p)
  else m ++ [(k, v)]

def parseMetadataGo : List (String × String) → List String →
    Except String (List (String × String))
  | acc, [] => .ok acc
  | acc, e :: rest =>
      match splitOnceEq e.data with
      | none => .error "Metadata entries must be KEY=VALUE."
      | some (k, v) =>
          let key := pyStrip (String.mk k)
          if key = "" then .error "Metadata keys must be non-empty."
          else parseMetadataGo (dictInsert acc key (pyStrip (String.mk v))) rest

/-- `_parse_metadata` (raises `ArgumentTypeError` on bad entries). -/
def parse_metadata (es : List String) : Except String (List (String × String)) :=
  parseMetadataGo [] es

/-- Civil date from days since 1970-01-01 (Howard Hinnant's
`civil_from_days`, as used by every Gregorian datetime library). -/
def civilFromDays (z0 : Int) : Nat × Nat × Nat :=
  let z := z0 + 719468
  let era : Int := (if 0 ≤ z then z else z - 146096) / 146097
  let doe : Nat := (z - era * 146097).toNat
  let yoe : Nat := (doe - doe / 1460 + doe / 36524 - doe / 146096) / 365
  let y : Int := (yoe : Int) + era * 400
  let doy : Nat := doe - (365 * yoe + yoe / 4 - yoe / 100)
  let mp : Nat := (5 * doy + 2) / 153
  let d : Nat := doy - (153 * mp + 2) / 5 + 1
  let m : Nat := if mp < 10 then mp + 3 else mp - 9
  ((if m ≤ 2 then y + 1 else y).toNat, m, d)

def pad2 (n : Nat) : List Char := if n < 10 then '0' :: toDecimal n else toDecimal n

def pad4 (n : Nat) : List Char :=
  List.replicate (4 - (toDecimal n).length) '0' ++ toDecimal n

/-- `_isoformat`: `dt.astimezone(utc).isoformat(timespec="seconds")` with
`"+00:00"` replaced by `"Z"`, on an epoch-seconds instant. -/
def isoformat (t : Int) : String :=
  let days : Int := Int.fdiv t 86400
  let sod : Nat := (t - 86400 * days).toNat
  match civilFromDays days with
  | (y, m, d) =>
      String.mk (pad4 y ++ '-' :: pad2 m ++ '-' :: pad2 d ++
        'T' :: pad2 (sod / 3600) ++ ':' :: pad2 (sod / 60 % 60) ++
        ':' :: pad2 (sod % 60) ++ ['Z'])

/-- The `argparse.Namespace` fields `build_payload` consumes. -/
structure CliArgs where
  tenant_id : String
  tenant_name : Option String
  meta : List String
  feature : List String
  device : Option String
  key_id : Option String

/-- Python truthiness of an optional string (`None` and `""` are falsy). -/
def strTruthy : Option String → Option String
  | some s => if s = "" then none else some s
  | none => none

/-- `build_payload(args, issued_at=..., expires_at=...)`. -/
def build_payload (args : CliArgs) (issued_at expires_at : Int) (token_id : String) :
    Except String (List (String × Json)) :=
  match parse_metadata args.meta with
  | .error e => .error e
  | .ok metadata =>
      let tenant : List (String × Json) :=
        [("id", .str args.tenant_id)] ++
          (match strTruthy args.tenant_name with
            | some n => [("name", .str n)]
            | none => []) ++
          (match metadata with
            | [] => []
            | ms => [("metadata", .obj (ms.map fun p => (p.1, Json.str p.2)))])
      .ok ([("tenant", .obj tenant),
          ("features", .arr ((clean_features args.feature).map Json.str)),
          ("issued_at", .str (isoformat issued_at)),
          ("expires_at", .str (isoformat expires_at)),
          ("token_id", .str token_id)] ++
        (match strTruthy args.device with
          | some d => [("device", .str (pyStrip d))]
          | none => []) ++
        (match strTruthy args.key_id with
          | some k => [("key_id", .str (pyStrip k))]
          | none => []))

/-- `main()` after argument/timestamp parsing: expiry-order check, key
and password-file existence checks, payload build, OpenSSL signing,
artifact and token assembly. -/
def cli_main (signFn : List Nat → Option (List Nat))
    (privateKeyExists : Bool) (privateKey : String)
    (passwordFile : Option (String × Bool))
    (args : CliArgs) (issued_at expires_at : Int) (token_id : String) :
    Except String (List (String × Json) × String) :=
  if expires_at ≤ issued_at then
    .error "Expiration must be after the issuance timestamp."
  else if ¬ privateKeyExists then
    .error ("Private key not found: " ++ privateKey)
  else
    match passwordFile with
    | some (p, false) => .error ("Password file not found: " ++ p)
    | _ =>
        match build_payload args issued_at expires_at token_id with
        | .error e => .error e
        | .ok payload =>
            match signFn (canonicalize_payload (.obj payload)) with
            | none => .error "License signing failed via OpenSSL."
            | some signature =>
                let artifact : List (String × Json) :=
                  [("version", .num 1), ("algorithm", .str "ed25519"),
                    ("payload", .obj payload),
                    ("signature", .str (String.mk (urlsafe_b64encode signature)))]
                .ok (artifact, encode_license_token (.obj artifact))

/-- C9: issuance validates `expires_at > issued_at` before the signer is
invoked: when `expires_at <= issued_at` the CLI exits with the
human-readable message, the outcome is the same for every signing oracle
(the signer is never consulted), and no artifact or token is produced. -/
theorem issuance_rejects_nonpositive_validity
    (issued_at expires_at : Int) (h : expires_at ≤ issued_at) :
    ∀ (signFn signFn2 : List Nat → Option (List Nat)) (pk : Bool) (pkPath : String)
      (pw : Option (String × Bool)) (args : CliArgs) (tid : String),
      cli_main signFn pk pkPath pw args issued_at expires_at tid =
        .error "Expiration must be after the issuance timestamp." ∧
      cli_main signFn pk pkPath pw args issued_at expires_at tid =
        cli_main signFn2 pk pkPath pw args issued_at expires_at tid ∧
      ∀ r, cli_main signFn pk pkPath pw args issued_at expires_at tid ≠ .ok r := by
  intro signFn signFn2 pk pkPath pw args tid
  refine ⟨?_, ?_, ?_⟩ <;> simp [cli_main, h]

/-- Witness for C9 at `expires_at = issued_at` (2024-01-01T00:00:00Z). -/
theorem issuance_rejects_nonpositive_validity_witness :
    (1704067200 : Int) ≤ 1704067200 ∧
    cli_main (fun _ => some [1, 2]) true "key.pem" none
      ⟨"tenant-1", none, [], ["extract"], none, none⟩ 1704067200 1704067200 "tok-1" =
      .error "Expiration must be after the issuance timestamp." :=
  ⟨by decide,
    (issuance_rejects_nonpositive_validity 1704067200 1704067200 (by decide)
      (fun _ => some [1, 2]) (fun _ => none) true "key.pem" none
      ⟨"tenant-1", none, [], ["extract"], none, none⟩ "tok-1").1⟩

end LicenseSpec

namespace LicenseSpec

/-! ### Trial license store (ai_invoice/trial.py)

The persisted store file is explicit: `TrialFile.missing` is an absent
file, `.unparseable` is unreadable text (`JSONDecodeError`), `.content j`
is a file whose text parses to the JSON value `j`.  A result of `none`
models an uncaught exception (`TypeError`/`AttributeError` on non-dict
JSON or non-string timestamp values, which the `except` clause does not
catch); otherwise the result carries the returned `TrialStatus` and
`some (started, expires)` exactly when `_persist_trial` wrote the file. -/

def DEFAULT_FEATURES : List String :=
  ["extract", "classify", "predict", "predictive", "predictive_train", "train"]

def TRIAL_DURATION : Int := 7 * 86400

structure TrialStatus where
  started_at : Int
  expires_at : Int
  valid : Bool
  features : List String

inductive TrialFile where
  | missing
  | unparseable
  | content (j : Json)

/-- `_parse_timestamp`: strip, replace `"Z"`, `fromisoformat`, to UTC. -/
def parse_timestamp (s : String) : Option Int :=
  parseIsoUTC (String.mk (replaceZ (pyStrip s).data))

inductive TrialLoad where
  | reinit
  | loaded (started expires : Int)
  | crash

/-- The `try` block of `_load_trial`: `.reinit` when a caught exception
(`FileNotFoundError`, `KeyError`, `ValueError`, `JSONDecodeError`) fires,
`.crash` when an uncaught one does, in Python evaluation order. -/
def loadTrialRaw : TrialFile → TrialLoad
  | .missing => .reinit
  | .unparseable => .reinit
  | .content (.obj fs) =>
      match jget fs "started_at" with
      | none => .reinit
      | some (.str s1) =>
          match parse_timestamp s1 with
          | none => .reinit
          | some started =>
              match jget fs "expires_at" with
              | none => .reinit
              | some (.str s2) =>
                  match parse_timestamp s2 with
                  | none => .reinit
                  | some expires => .loaded started expires
              | some _ => .crash
      | some _ => .crash
  | .content _ => .crash

/-- `_initialize_trial(now)`: fresh 7-day window plus the persist event. -/
def init_trial (now : Int) : TrialStatus × (Int × Int) :=
  (⟨now, now + TRIAL_DURATION, true, DEFAULT_FEATURES⟩, (now, now + TRIAL_DURATION))

/-- `_load_trial(now)` given the store file's state. -/
def load_trial (file : TrialFile) (now : Int) :
    Option (TrialStatus × Option (Int × Int)) :=
  match loadTrialRaw file with
  | .crash => none
  | .reinit => some ((init_trial now).1, some (init_trial now).2)
  | .loaded started expires =>
      if expires ≤ started then some ((init_trial now).1, some (init_trial now).2)
      else some (⟨started, expires, decide (now < expires), DEFAULT_FEATURES⟩, none)

/-- `get_trial_status(now)` given the store file's state. -/
def get_trial_status (file : TrialFile) (now : Int) :
    Option (TrialStatus × Option (Int × Int)) :=
  match file with
  | .missing => some ((init_trial now).1, some (init_trial now).2)
  | f => load_trial f now

/-- C10: for a fixed well-formed persisted trial file, every read within
the window returns the same `started_at`/`expires_at`, valid and with no
disk write; a read at or after `expires_at` returns `valid = false` with
`started_at` and `expires_at` unchanged and still no write; and
initialization issues exactly a 7-day window. -/
theorem trial_status_read_stable (j : Json) (started expires : Int)
    (hload : loadTrialRaw (.content j) = .loaded started expires)
    (hlt : started < expires) :
    (∀ t1 t2 : Int, t1 < expires → t2 < expires →
        get_trial_status (.content j) t1 =
          some (⟨started, expires, true, DEFAULT_FEATURES⟩, none) ∧
        get_trial_status (.content j) t2 =
          some (⟨started, expires, true, DEFAULT_FEATURES⟩, none)) ∧
    (∀ t : Int, expires ≤ t →
        get_trial_status (.content j) t =
          some (⟨started, expires, false, DEFAULT_FEATURES⟩, none)) ∧
    (∀ t : Int, (init_trial t).1.started_at = t ∧
        (init_trial t).1.expires_at = t + 7 * 86400) := by
  have hns : ¬ expires ≤ started := not_le.mpr hlt
  refine ⟨?_, ?_, ?_⟩
  · intro t1 t2 h1 h2
    constructor <;> simp [get_trial_status, load_trial, hload, hns, h1, h2]
  · intro t hge
    have hnl : ¬ t < expires := not_lt.mpr hge
    simp [get_trial_status, load_trial, hload, hns, hnl]
  · intro t
    exact ⟨rfl, rfl⟩

def trialFileJson : Json :=
  .obj [("started_at", .str "2024-01-01T00:00:00Z"),
    ("expires_at", .str "2024-01-08T00:00:00Z")]

/-- Witness for C10 on a concrete persisted file: two in-window reads
agree with no write, and a read at expiry is invalid with the original
window. -/
theorem trial_status_read_stable_witness :
    get_trial_status (.content trialFileJson) 1704067200 =
      some (⟨1704067200, 1704672000, true, DEFAULT_FEATURES⟩, none) ∧
    get_trial_status (.content trialFileJson) 1704500000 =
      some (⟨1704067200, 1704672000, true, DEFAULT_FEATURES⟩, none) ∧
    get_trial_status (.content trialFileJson) 1704672000 =
      some (⟨1704067200, 1704672000, false, DEFAULT_FEATURES⟩, none) := by
  have h := trial_status_read_stable trialFileJson 1704067200 1704672000 rfl (by decide)
  exact ⟨(h.1 1704067200 1704500000 (by decide) (by decide)).1,
    (h.1 1704067200 1704500000 (by decide) (by decide)).2,
    h.2.1 1704672000 (by decide)⟩

end LicenseSpec
